import Mathlib

/-!
Verification development for the SmoothTask snapshot-training core
(`smoothtask_trainer/dataset.py` and `smoothtask_trainer/features.py`).

The pandas/SQLite layer is shallowly embedded:
* a cell value is a `PyVal` (Python scalar, list or dict); float NaN/±inf are
  explicit (`PFloat`); `PyVal.none` stands for SQL NULL / Python None / pd.NA
  (pandas' missing markers are interchangeable for every operation modelled
  here, all of which go through `pd.isna`);
* a table is a declared column list plus typed rows whose dynamic cells are
  association lists;
* JSON-typed cells (`tags`, `process_ids`) are represented by their decoded
  JSON value (`PyVal.none` for NULL/blank). The string-level JSON grammar of
  `json.loads` is outside the model, so `_json_list`'s JSONDecodeError branch
  has no counterpart here; its "expected a JSON array" branch is kept.
* every Python exception raised by the two modules is a `TrainError` value;
  `render` gives the (exception type, message) pair the caller observes.
-/

/-- Python float semantics restricted to what the pipeline inspects:
NaN, the two infinities, and exactly-representable finite values (ℚ). -/
inductive PFloat
  | nan
  | inf
  | ninf
  | fin (q : ℚ)
  deriving DecidableEq

/-- A dynamic Python/pandas cell value. -/
inductive PyVal
  | none
  | pbool (b : Bool)
  | pint (n : Int)
  | pfloat (x : PFloat)
  | pstr (s : String)
  | plist (l : List PyVal)
  | pdict

def PyVal.decEq : (a b : PyVal) → Decidable (a = b)
  | .none, .none => isTrue rfl
  | .pbool a, .pbool b =>
    if h : a = b then isTrue (by rw [h]) else isFalse (by simp [h])
  | .pint a, .pint b =>
    if h : a = b then isTrue (by rw [h]) else isFalse (by simp [h])
  | .pfloat a, .pfloat b =>
    if h : a = b then isTrue (by rw [h]) else isFalse (by simp [h])
  | .pstr a, .pstr b =>
    if h : a = b then isTrue (by rw [h]) else isFalse (by simp [h])
  | .pdict, .pdict => isTrue rfl
  | .plist a, .plist b =>
    match decEqList a b with
    | isTrue h => isTrue (by rw [h])
    | isFalse h => isFalse (by simp [h])
  | .none, .pbool _ => isFalse (fun h => by cases h)
  | .none, .pint _ => isFalse (fun h => by cases h)
  | .none, .pfloat _ => isFalse (fun h => by cases h)
  | .none, .pstr _ => isFalse (fun h => by cases h)
  | .none, .plist _ => isFalse (fun h => by cases h)
  | .none, .pdict => isFalse (fun h => by cases h)
  | .pbool _, .none => isFalse (fun h => by cases h)
  | .pbool _, .pint _ => isFalse (fun h => by cases h)
  | .pbool _, .pfloat _ => isFalse (fun h => by cases h)
  | .pbool _, .pstr _ => isFalse (fun h => by cases h)
  | .pbool _, .plist _ => isFalse (fun h => by cases h)
  | .pbool _, .pdict => isFalse (fun h => by cases h)
  | .pint _, .none => isFalse (fun h => by cases h)
  | .pint _, .pbool _ => isFalse (fun h => by cases h)
  | .pint _, .pfloat _ => isFalse (fun h => by cases h)
  | .pint _, .pstr _ => isFalse (fun h => by cases h)
  | .pint _, .plist _ => isFalse (fun h => by cases h)
  | .pint _, .pdict => isFalse (fun h => by cases h)
  | .pfloat _, .none => isFalse (fun h => by cases h)
  | .pfloat _, .pbool _ => isFalse (fun h => by cases h)
  | .pfloat _, .pint _ => isFalse (fun h => by cases h)
  | .pfloat _, .pstr _ => isFalse (fun h => by cases h)
  | .pfloat _, .plist _ => isFalse (fun h => by cases h)
  | .pfloat _, .pdict => isFalse (fun h => by cases h)
  | .pstr _, .none => isFalse (fun h => by cases h)
  | .pstr _, .pbool _ => isFalse (fun h => by cases h)
  | .pstr _, .pint _ => isFalse (fun h => by cases h)
  | .pstr _, .pfloat _ => isFalse (fun h => by cases h)
  | .pstr _, .plist _ => isFalse (fun h => by cases h)
  | .pstr _, .pdict => isFalse (fun h => by cases h)
  | .plist _, .none => isFalse (fun h => by cases h)
  | .plist _, .pbool _ => isFalse (fun h => by cases h)
  | .plist _, .pint _ => isFalse (fun h => by cases h)
  | .plist _, .pfloat _ => isFalse (fun h => by cases h)
  | .plist _, .pstr _ => isFalse (fun h => by cases h)
  | .plist _, .pdict => isFalse (fun h => by cases h)
  | .pdict, .none => isFalse (fun h => by cases h)
  | .pdict, .pbool _ => isFalse (fun h => by cases h)
  | .pdict, .pint _ => isFalse (fun h => by cases h)
  | .pdict, .pfloat _ => isFalse (fun h => by cases h)
  | .pdict, .pstr _ => isFalse (fun h => by cases h)
  | .pdict, .plist _ => isFalse (fun h => by cases h)
where
  decEqList : (a b : List PyVal) → Decidable (a = b)
  | [], [] => isTrue rfl
  | [], _ :: _ => isFalse (by simp)
  | _ :: _, [] => isFalse (by simp)
  | x :: xs, y :: ys =>
    match PyVal.decEq x y, decEqList xs ys with
    | isTrue h1, isTrue h2 => isTrue (by rw [h1, h2])
    | isFalse h1, _ => isFalse (by simp [h1])
    | isTrue _, isFalse h2 => isFalse (by simp [h2])

instance : DecidableEq PyVal := PyVal.decEq

-- `pd.isna` on a scalar cell (None, NaN and pd.NA are the missing markers).
def pyIsNA : PyVal → Bool
  | .none => true
  | .pfloat .nan => true
  | _ => false

-- Python `str(...)` of a value, to the extent the pipeline prints values:
-- integer-valued floats print as "n.0"; other finite floats are abbreviated
-- to num/den (no claim exercises their text).
def floatStr : PFloat → String
  | .nan => "nan"
  | .inf => "inf"
  | .ninf => "-inf"
  | .fin q => if q.den = 1 then toString q.num ++ ".0"
              else toString q.num ++ "/" ++ toString q.den

def apos : Char := '\x27'

-- Python repr s for plain strings: the value wrapped in single quotes.
def quoteStr (s : String) : String := ⟨apos :: s.data ++ [apos]⟩

mutual
def pyStr : PyVal → String
  | .none => "None"
  | .pbool b => if b then "True" else "False"
  | .pint n => toString n
  | .pfloat x => floatStr x
  | .pstr s => s
  | .plist l => "[" ++ pyReprJoin l ++ "]"
  | .pdict => "\x7b\x7d"

def pyRepr : PyVal → String
  | .pstr s => quoteStr s
  | .pbool b => if b then "True" else "False"
  | .pint n => toString n
  | .pfloat x => floatStr x
  | .none => "None"
  | .plist l => "[" ++ pyReprJoin l ++ "]"
  | .pdict => "\x7b\x7d"

def pyReprJoin : List PyVal → String
  | [] => ""
  | [v] => pyRepr v
  | v :: rest => pyRepr v ++ ", " ++ pyReprJoin rest
end

-- Python type(...) as printed in error messages.
def pyTypeName : PyVal → String
  | .none => "<class " ++ quoteStr "NoneType" ++ ">"
  | .pbool _ => "<class " ++ quoteStr "bool" ++ ">"
  | .pint _ => "<class " ++ quoteStr "int" ++ ">"
  | .pfloat _ => "<class " ++ quoteStr "float" ++ ">"
  | .pstr _ => "<class " ++ quoteStr "str" ++ ">"
  | .plist _ => "<class " ++ quoteStr "list" ++ ">"
  | .pdict => "<class " ++ quoteStr "dict" ++ ">"

def joinComma : List String → String
  | [] => ""
  | [s] => s
  | s :: rest => s ++ ", " ++ joinComma rest

def joinSemi : List String → String
  | [] => ""
  | [s] => s
  | s :: rest => s ++ "; " ++ joinSemi rest

-- Decimal parsing backing Python float(str)/pandas numeric parsing for the
-- literal shapes the data contains (optional sign, digits, optional decimal
-- point; exponents and the inf/nan words are outside the model).
def digitsVal (cs : List Char) : ℚ :=
  cs.foldl (fun acc c => acc * 10 + ((c.toNat - '0'.toNat : ℕ) : ℚ)) 0

def parseUnsigned (cs : List Char) : Option ℚ :=
  let intPart := cs.takeWhile (·.isDigit)
  let rest := cs.dropWhile (·.isDigit)
  match rest with
  | [] => if intPart.isEmpty then Option.none else some (digitsVal intPart)
  | '.' :: frac =>
    if frac.all (·.isDigit) ∧ ¬(intPart.isEmpty ∧ frac.isEmpty) then
      some (digitsVal intPart + digitsVal frac / (10 : ℚ) ^ frac.length)
    else Option.none
  | _ => Option.none

def parseDecimal (s : String) : Option ℚ :=
  match s.data with
  | '-' :: rest => (parseUnsigned rest).map (fun q => -q)
  | '+' :: rest => parseUnsigned rest
  | cs => parseUnsigned cs

-- Python str.strip() / str.lower() restricted to ASCII (the loader only
-- compares the results against "0"/"1", so wider Unicode handling is moot).
def isSpaceChar (c : Char) : Bool :=
  c = ' ' ∨ c = '\t' ∨ c = '\n' ∨ c = '\r' ∨ c = '\x0b' ∨ c = '\x0c'

def pyStrip (s : String) : String :=
  ⟨(((s.data.dropWhile isSpaceChar).reverse.dropWhile isSpaceChar).reverse)⟩

def lowerChar (c : Char) : Char :=
  if 'A' ≤ c ∧ c ≤ 'Z' then Char.ofNat (c.toNat + 32) else c

def pyLower (s : String) : String := ⟨s.data.map lowerChar⟩

-- pandas `pd.to_numeric(..., errors="coerce")` on one cell: unparseable
-- values become NaN, never an error.
def toNumeric : PyVal → PFloat
  | .none => .nan
  | .pbool b => .fin (if b then 1 else 0)
  | .pint n => .fin n
  | .pfloat x => x
  | .pstr s =>
    match parseDecimal (pyStrip s) with
    | some q => .fin q
    | Option.none => .nan
  | .plist _ => .nan
  | .pdict => .nan

def PFloat.isInf : PFloat → Bool
  | .inf => true
  | .ninf => true
  | _ => false

/-! ### Column lists (module-level schema constants of `dataset.py`).
The source declares the boolean-column groups as Python sets; iteration
order of a set is not semantically relevant (at most the first of several
per-table coercion errors changes), and the model fixes the declaration
order. -/

def PROCESS_BOOL_COLS : List String :=
  ["has_tty", "has_gui_window", "is_focused_window", "env_has_display",
   "env_has_wayland", "env_ssh", "is_audio_client", "has_active_stream"]

def SNAPSHOT_BOOL_COLS : List String := ["user_active", "bad_responsiveness"]

def APP_GROUP_BOOL_COLS : List String := ["has_gui_window", "is_focused_group"]

def SNAPSHOT_NUMERIC_COLS : List String :=
  ["cpu_user", "cpu_system", "cpu_idle", "cpu_iowait", "mem_total_kb",
   "mem_used_kb", "mem_available_kb", "swap_total_kb", "swap_used_kb",
   "load_avg_one", "load_avg_five", "load_avg_fifteen", "psi_cpu_some_avg10",
   "psi_cpu_some_avg60", "psi_io_some_avg10", "psi_mem_some_avg10",
   "psi_mem_full_avg10", "time_since_last_input_ms", "sched_latency_p95_ms",
   "sched_latency_p99_ms", "audio_xruns_delta", "ui_loop_p95_ms",
   "frame_jank_ratio", "responsiveness_score"]

def PROCESS_NUMERIC_COLS : List String :=
  ["start_time", "uptime_sec", "tty_nr", "cpu_share_1s", "cpu_share_10s",
   "io_read_bytes", "io_write_bytes", "rss_mb", "swap_mb", "voluntary_ctx",
   "involuntary_ctx", "nice", "ionice_class", "ionice_prio", "teacher_score"]

def APP_GROUP_NUMERIC_COLS : List String :=
  ["root_pid", "total_cpu_share", "total_io_read_bytes",
   "total_io_write_bytes", "total_rss_mb"]

/-! ### The error taxonomy.

Both modules raise plain `ValueError`s (plus `FileNotFoundError` for a
missing store); `TrainError` is the disjoint union of the raise sites, each
constructor carrying the data that the site interpolates into its message.
Sample-limited constructors carry exactly the (at most 5) items that the
raise site formats. -/

inductive TableName
  | snapshots
  | processes
  | app_groups
  deriving DecidableEq

def tblNameStr : TableName → String
  | .snapshots => "snapshots"
  | .processes => "processes"
  | .app_groups => "app_groups"

-- `str(keys)` for the duplicate-key message (`keys` is a Python list of
-- column names; only the processes/app_groups call sites exist).
def keysText : TableName → String
  | .processes => "[" ++ quoteStr "snapshot_id" ++ ", " ++ quoteStr "pid" ++ "]"
  | .app_groups => "[" ++ quoteStr "snapshot_id" ++ ", " ++ quoteStr "app_group_id" ++ "]"
  | .snapshots => "[" ++ quoteStr "snapshot_id" ++ "]"

/-- Spec §7 failure taxonomy (the six documented error kinds). -/
inductive ErrorKind
  | storeNotFound
  | schemaError
  | integrityError
  | valueCoercionError
  | nonFiniteValueError
  | emptyInputError
  deriving DecidableEq

inductive TrainError
  | storeNotFound (path : String)
  | missingColumns (t : TableName) (missing : List String)
  | nanKeyColumn (t : TableName) (col : String) (idxs : List Nat)
  | infiniteColumn (t : TableName) (col : String) (idxs : List Nat)
  | missingSnapshotRefs (src : TableName) (ids : List PyVal)
  | duplicateKeys (t : TableName) (samples : List (PyVal × PyVal))
  | danglingGroup (pairs : List (PyVal × PyVal))
  | boolCoercion (col : String) (t : TableName) (samples : List PyVal)
  | tagsElems (col : String) (samples : List PyVal)
  | processIdsInvalid (samples : List PyVal)
  | jsonNotArray (v : PyVal)
  | emptyFrame
  | noSnapshotCol
  | noTargets
  deriving DecidableEq

-- Shorthand: the character data of a string literal.
def chs (s : String) : List Char := s.data

def fmtIdxs (idxs : List Nat) : String := joinComma (idxs.map toString)

def fmtPair (p : PyVal × PyVal) : String :=
  "(snapshot_id=" ++ pyStr p.1 ++ ", app_group_id=" ++ pyStr p.2 ++ ")"

def fmtKeyPair (p : PyVal × PyVal) : String :=
  "(" ++ pyStr p.1 ++ ", " ++ pyStr p.2 ++ ")"

-- The exception message of each raise site, verbatim from the source
-- f-strings, assembled as character data (quotes written via `apos`).
def TrainError.message : TrainError → List Char
  | .storeNotFound path => chs path
  | .missingColumns t missing =>
    chs "В таблице " ++ apos :: chs (tblNameStr t) ++ apos ::
      chs " отсутствуют обязательные столбцы: " ++ chs (joinComma missing)
  | .nanKeyColumn t col idxs =>
    chs "В таблице " ++ apos :: chs (tblNameStr t) ++ apos ::
      chs " колонка " ++ apos :: chs col ++ apos ::
      chs " содержит пустые значения (строки: " ++ chs (fmtIdxs idxs) ++ [')']
  | .infiniteColumn t col idxs =>
    chs "В таблице " ++ apos :: chs (tblNameStr t) ++ apos ::
      chs " колонка " ++ apos :: chs col ++ apos ::
      chs " содержит бесконечные значения (строки: " ++ chs (fmtIdxs idxs) ++ [')']
  | .missingSnapshotRefs src ids =>
    chs "В таблице " ++ apos :: chs (tblNameStr src) ++ apos ::
      chs " найдены snapshot_id без записей в " ++ apos :: chs "snapshots" ++ apos ::
      chs ": " ++ chs (joinComma (ids.map pyStr))
  | .duplicateKeys t samples =>
    chs "В таблице " ++ apos :: chs (tblNameStr t) ++ apos ::
      chs " обнаружены дубликаты по ключу " ++ chs (keysText t) ++
      chs ": " ++ chs (joinSemi (samples.map fmtKeyPair))
  | .danglingGroup pairs =>
    chs "В таблице " ++ apos :: chs "processes" ++ apos ::
      chs " есть app_group_id без записей в " ++ apos :: chs "app_groups" ++ apos ::
      chs ": " ++ chs (joinSemi (pairs.map fmtPair))
  | .boolCoercion col t samples =>
    chs "Колонка " ++ apos :: chs col ++ apos ::
      chs " в таблице " ++ apos :: chs (tblNameStr t) ++ apos ::
      chs " содержит невалидные булевые значения: " ++
      chs (joinComma (samples.map pyRepr))
  | .tagsElems col samples =>
    chs "Колонка " ++ apos :: chs col ++ apos ::
      chs " содержит некорректные элементы tags: " ++
      chs (joinComma (samples.map pyRepr))
  | .processIdsInvalid samples =>
    chs "Колонка " ++ apos :: chs "process_ids" ++ apos ::
      chs " содержит нецелые значения: " ++ chs (joinComma (samples.map pyRepr))
  | .jsonNotArray v => chs "Ожидался JSON-массив, получено: " ++ chs (pyTypeName v)
  | .emptyFrame => chs "DataFrame с снапшотами пуст"
  | .noSnapshotCol => chs "Ожидается столбец snapshot_id для группировки"
  | .noTargets => chs "Нет доступных таргетов teacher_score или responsiveness_score"

-- The Python exception class raised at each site.
def TrainError.excType : TrainError → String
  | .storeNotFound _ => "FileNotFoundError"
  | _ => "ValueError"

/-- what the caller observes: the exception class and its message. -/
def render (e : TrainError) : String × String := (e.excType, ⟨e.message⟩)

-- Which of the six spec §7 kinds each raise site belongs to. Null key
-- columns are §4.1's integrity check 5, hence IntegrityError.
def kindOf : TrainError → ErrorKind
  | .storeNotFound _ => .storeNotFound
  | .missingColumns _ _ => .schemaError
  | .nanKeyColumn _ _ _ => .integrityError
  | .infiniteColumn _ _ _ => .nonFiniteValueError
  | .missingSnapshotRefs _ _ => .integrityError
  | .duplicateKeys _ _ => .integrityError
  | .danglingGroup _ => .integrityError
  | .boolCoercion _ _ _ => .valueCoercionError
  | .tagsElems _ _ => .valueCoercionError
  | .processIdsInvalid _ => .valueCoercionError
  | .jsonNotArray _ => .valueCoercionError
  | .emptyFrame => .emptyInputError
  | .noSnapshotCol => .emptyInputError
  | .noTargets => .emptyInputError

-- The (table, column) pairs `_ensure_no_nan` is invoked with.
def nanSites : List (TableName × String) :=
  [(.snapshots, "snapshot_id"), (.processes, "snapshot_id"),
   (.processes, "pid"), (.app_groups, "snapshot_id"),
   (.app_groups, "app_group_id")]

def numericColsFor : TableName → List String
  | .snapshots => SNAPSHOT_NUMERIC_COLS
  | .processes => PROCESS_NUMERIC_COLS
  | .app_groups => APP_GROUP_NUMERIC_COLS

-- Argument domains actually possible at the raise sites (used to state the
-- error-distinguishability theorem over producible errors).
def TrainError.wf : TrainError → Prop
  | .nanKeyColumn t col _ => (t, col) ∈ nanSites
  | .infiniteColumn t col _ => col ∈ numericColsFor t
  | _ => True

/-! ### Table model

Each SQLite table is a declared column list plus typed rows. Key columns and
JSON columns are named fields (always physically present on the row record;
the loader consults the declared `cols` for pandas' column-presence tests);
all remaining metric/flag cells live in an association list. -/

structure SnapshotRow where
  snapshot_id : PyVal
  cells : List (String × PyVal)
  deriving DecidableEq

structure ProcessRow where
  snapshot_id : PyVal
  pid : PyVal
  app_group_id : PyVal
  tags : PyVal
  cells : List (String × PyVal)
  deriving DecidableEq

structure AppGroupRow where
  snapshot_id : PyVal
  app_group_id : PyVal
  tags : PyVal
  process_ids : PyVal
  cells : List (String × PyVal)
  deriving DecidableEq

structure Table (ρ : Type) where
  cols : List String
  rows : List ρ
  deriving DecidableEq

structure Store where
  path : String
  present : Bool
  snapshots : Table SnapshotRow
  processes : Table ProcessRow
  app_groups : Table AppGroupRow
  deriving DecidableEq

def cellIn (cells : List (String × PyVal)) (c : String) : PyVal :=
  (List.lookup c cells).getD .none

def updateCells : List (String × PyVal) → String → PyVal → List (String × PyVal)
  | [], c, v => [(c, v)]
  | (k, w) :: rest, c, v =>
    if k = c then (k, v) :: rest else (k, w) :: updateCells rest c v

def snapCell (r : SnapshotRow) (c : String) : PyVal :=
  if c = "snapshot_id" then r.snapshot_id else cellIn r.cells c

def procCell (r : ProcessRow) (c : String) : PyVal :=
  if c = "snapshot_id" then r.snapshot_id
  else if c = "pid" then r.pid
  else if c = "app_group_id" then r.app_group_id
  else if c = "tags" then r.tags
  else cellIn r.cells c

def groupCell (r : AppGroupRow) (c : String) : PyVal :=
  if c = "snapshot_id" then r.snapshot_id
  else if c = "app_group_id" then r.app_group_id
  else if c = "tags" then r.tags
  else if c = "process_ids" then r.process_ids
  else cellIn r.cells c

-- The three-valued-boolean columns are never key/JSON fields, so the
-- coerced values are written back into the cell association list.
def snapSetCell (r : SnapshotRow) (c : String) (v : PyVal) : SnapshotRow :=
  { r with cells := updateCells r.cells c v }

def procSetCell (r : ProcessRow) (c : String) (v : PyVal) : ProcessRow :=
  { r with cells := updateCells r.cells c v }

def groupSetCell (r : AppGroupRow) (c : String) (v : PyVal) : AppGroupRow :=
  { r with cells := updateCells r.cells c v }

/-! ### Orderings used by `sorted(...)` and `sort_values` (ascending).
pandas raises on incomparable mixed types; the model totalises the order by
ranking values by type first. Validated stores have homogeneous keys, where
the two orders agree. -/

abbrev PvKey := Lex (ℤ × Lex (ℚ × List Char))

def pvKey : PyVal → PvKey
  | .none => toLex (13, toLex (0, []))
  | .pbool b => toLex (10, toLex (if b then 1 else 0, []))
  | .pint n => toLex (10, toLex ((n : ℚ), []))
  | .pfloat (.fin q) => toLex (10, toLex (q, []))
  | .pfloat .ninf => toLex (9, toLex (0, []))
  | .pfloat .inf => toLex (11, toLex (0, []))
  | .pfloat .nan => toLex (12, toLex (0, []))
  | .pstr s => toLex (14, toLex (0, s.data))
  | .plist _ => toLex (15, toLex (0, []))
  | .pdict => toLex (16, toLex (0, []))

def pvLe (a b : PyVal) : Prop := pvKey a ≤ pvKey b

instance : DecidableRel pvLe := fun a b => inferInstanceAs (Decidable (pvKey a ≤ pvKey b))

instance : IsTotal PyVal pvLe := ⟨fun a b => le_total (pvKey a) (pvKey b)⟩

instance : IsTrans PyVal pvLe := ⟨fun _ _ _ h1 h2 => le_trans h1 h2⟩

def sortPv (l : List PyVal) : List PyVal := List.insertionSort pvLe l

abbrev PvKey2 := Lex (PvKey × PvKey)

def pairKey (p : PyVal × PyVal) : PvKey2 := toLex (pvKey p.1, pvKey p.2)

def pairLe (a b : PyVal × PyVal) : Prop := pairKey a ≤ pairKey b

instance : DecidableRel pairLe := fun a b => inferInstanceAs (Decidable (pairKey a ≤ pairKey b))

instance : IsTotal (PyVal × PyVal) pairLe := ⟨fun a b => le_total (pairKey a) (pairKey b)⟩

instance : IsTrans (PyVal × PyVal) pairLe := ⟨fun _ _ _ h1 h2 => le_trans h1 h2⟩

def sortPairs (l : List (PyVal × PyVal)) : List (PyVal × PyVal) :=
  List.insertionSort pairLe l

-- Python set construction keeps one copy of each element; pandas
-- drop_duplicates keeps the first occurrence.
def dedupKeep {α : Type} [DecidableEq α] (l : List α) : List α :=
  l.foldl (fun acc x => if x ∈ acc then acc else acc ++ [x]) []

-- `series.dropna().unique()` as a set of values.
def uniqueVals (l : List PyVal) : List PyVal :=
  dedupKeep (l.filter (fun v => ¬ pyIsNA v))

/-! ### Validation helpers of `dataset.py` -/

-- `_ensure_required_columns`; `required` is supplied alphabetically sorted,
-- matching `sorted(missing)` at the raise site.
def ensure_required_columns (t : TableName) (tableCols : List String)
    (required : List String) : Except TrainError Unit :=
  let missing := required.filter (fun c => c ∉ tableCols)
  if missing.isEmpty then .ok () else .error (.missingColumns t missing)

-- The source's per-column `for` loops: stop at the first failing column.
def firstError {α ε : Type} (f : α → Except ε Unit) : List α → Except ε Unit
  | [] => .ok ()
  | x :: xs =>
    match f x with
    | .ok _ => firstError f xs
    | .error e => .error e

-- The source's row-by-row loops raising on the first bad row.
def mapExcept {α β ε : Type} (f : α → Except ε β) : List α → Except ε (List β)
  | [] => .ok []
  | x :: xs =>
    match f x, mapExcept f xs with
    | .ok y, .ok ys => .ok (y :: ys)
    | .error e, _ => .error e
    | .ok _, .error e => .error e

-- One column of `_ensure_no_nan`.
def nanIdxs {ρ : Type} (rows : List ρ) (cell : ρ → String → PyVal) (col : String) :
    List Nat :=
  rows.enum.filterMap (fun p => if pyIsNA (cell p.2 col) then some p.1 else Option.none)

def nanColCheck {ρ : Type} (t : TableName) (rows : List ρ)
    (cell : ρ → String → PyVal) (col : String) : Except TrainError Unit :=
  if (nanIdxs rows cell col).isEmpty then .ok ()
  else .error (.nanKeyColumn t col ((nanIdxs rows cell col).take 5))

-- `_ensure_no_nan` over the declared key columns.
def ensure_no_nan {ρ : Type} (t : TableName) (rows : List ρ)
    (cell : ρ → String → PyVal) (columns : List String) : Except TrainError Unit :=
  firstError (nanColCheck t rows cell) columns

-- One column of `_ensure_no_infinite`: columns absent from the table are
-- skipped; `pd.to_numeric(..., errors="coerce")` then `np.isinf`.
def infIdxs {ρ : Type} (rows : List ρ) (cell : ρ → String → PyVal) (col : String) :
    List Nat :=
  rows.enum.filterMap (fun p => if (toNumeric (cell p.2 col)).isInf then some p.1 else Option.none)

def infColCheck {ρ : Type} (t : TableName) (tableCols : List String)
    (rows : List ρ) (cell : ρ → String → PyVal) (col : String) :
    Except TrainError Unit :=
  if col ∈ tableCols then
    if (infIdxs rows cell col).isEmpty then .ok ()
    else .error (.infiniteColumn t col ((infIdxs rows cell col).take 5))
  else .ok ()

def ensure_no_infinite {ρ : Type} (t : TableName) (tableCols : List String)
    (rows : List ρ) (cell : ρ → String → PyVal) (columns : List String) :
    Except TrainError Unit :=
  firstError (infColCheck t tableCols rows cell) columns

-- `_ensure_unique_keys` (both call sites use a two-column key).
-- the distinct duplicated key pairs, in first-occurrence order.
def dupKeys {ρ : Type} (rows : List ρ) (keyOf : ρ → PyVal × PyVal) :
    List (PyVal × PyVal) :=
  dedupKeep ((rows.map keyOf).filter (fun k => 2 ≤ (rows.map keyOf).count k))

def ensure_unique_keys {ρ : Type} (t : TableName) (rows : List ρ)
    (keyOf : ρ → PyVal × PyVal) : Except TrainError Unit :=
  if (dupKeys rows keyOf).isEmpty then .ok ()
  else .error (.duplicateKeys t ((dupKeys rows keyOf).take 5))

/-! ### Scalar/JSON coercion of `dataset.py` -/

-- One iteration of `_coerce_bool_column`'s loop: `some` is the coerced
-- nullable-boolean cell, `Option.none` marks an invalid raw value.
def coerceBoolValue (v : PyVal) : Option PyVal :=
  if pyIsNA v then some .none
  else match v with
  | .pbool b => some (.pbool b)
  | .pint n => if n = 0 ∨ n = 1 then some (.pbool (n = 1)) else Option.none
  | .pfloat (.fin q) => if q = 0 ∨ q = 1 then some (.pbool (q = 1)) else Option.none
  | .pstr s =>
    let t := pyLower (pyStrip s)
    if t = "0" ∨ t = "1" then some (.pbool (t = "1")) else Option.none
  | _ => Option.none

def coerce_bool_column (series : List PyVal) (column : String) (table : TableName) :
    Except TrainError (List PyVal) :=
  if (series.filter (fun v => (coerceBoolValue v).isNone)).isEmpty then
    .ok (series.map (fun v => (coerceBoolValue v).getD .none))
  else .error (.boolCoercion column table
    ((series.filter (fun v => (coerceBoolValue v).isNone)).take 5))

-- `_to_bool`: coerce each listed column that the table declares.
def to_bool {ρ : Type} (tableCols : List String) (rows : List ρ)
    (cell : ρ → String → PyVal) (setC : ρ → String → PyVal → ρ)
    (columns : List String) (t : TableName) : Except TrainError (List ρ) :=
  match columns with
  | [] => .ok rows
  | col :: rest =>
    if col ∈ tableCols then
      match coerce_bool_column (rows.map (fun r => cell r col)) col t with
      | .ok vals =>
        to_bool tableCols (List.zipWith (fun r v => setC r col v) rows vals)
          cell setC rest t
      | .error e => .error e
    else to_bool tableCols rows cell setC rest t

-- `_json_list` on the decoded cell (NULL and blank raw text are `.none`).
def json_list (value : PyVal) : Except TrainError (List PyVal) :=
  match value with
  | .none => .ok []
  | .plist l => .ok l
  | v => .error (.jsonNotArray v)

def isComplexItem : PyVal → Bool
  | .plist _ => true
  | .pdict => true
  | _ => false

-- One item of `_parse_process_ids`: `some Option.none` = skipped,
-- `some (some n)` = accepted id, `Option.none` = invalid.
def parseIdItem (v : PyVal) : Option (Option Int) :=
  if pyIsNA v then some Option.none
  else match v with
  | .plist _ => Option.none
  | .pdict => Option.none
  | .pbool _ => Option.none
  | .pint n => some (some n)
  | .pfloat (.fin q) => if q.den = 1 then some (some q.num) else Option.none
  | .pfloat _ => Option.none
  | .pstr s =>
    let st := pyStrip s
    if st = "" then some Option.none
    else match parseDecimal st with
    | some q => if q.den = 1 then some (some q.num) else Option.none
    | Option.none => Option.none
  | .none => some Option.none

def parse_process_ids (value : PyVal) : Except TrainError (List Int) :=
  match json_list value with
  | .error e => .error e
  | .ok parsed =>
    if parsed.isEmpty then .ok []
    else
      let invalid := parsed.filter (fun v => (parseIdItem v).isNone)
      if invalid.isEmpty then
        .ok (parsed.filterMap (fun v => (parseIdItem v).getD Option.none))
      else .error (.processIdsInvalid (invalid.take 5))

def normalize_tags_list (value : PyVal) (column : String) :
    Except TrainError (List String) :=
  match json_list value with
  | .error e => .error e
  | .ok parsed =>
    if parsed.isEmpty then .ok []
    else
      let invalid := parsed.filter (fun v => ¬ pyIsNA v ∧ isComplexItem v)
      if invalid.isEmpty then
        .ok (parsed.filterMap (fun v =>
          if pyIsNA v then Option.none
          else
            let t := pyStrip (pyStr v)
            if t = "" then Option.none else some t))
      else .error (.tagsElems column (invalid.take 5))

/-! ### Normalization, join and ordering of `load_snapshots_as_frame` -/

def normalizeSnapshots (t : Table SnapshotRow) : Except TrainError (List SnapshotRow) :=
  to_bool t.cols t.rows snapCell snapSetCell SNAPSHOT_BOOL_COLS .snapshots

-- the row-wise tags normalization written back into the column.
def normTagsRow (r : ProcessRow) : Except TrainError ProcessRow :=
  match normalize_tags_list r.tags "tags" with
  | .ok tags => .ok { r with tags := .plist (tags.map .pstr) }
  | .error e => .error e

def normalizeProcesses (t : Table ProcessRow) : Except TrainError (List ProcessRow) :=
  match to_bool t.cols t.rows procCell procSetCell PROCESS_BOOL_COLS .processes with
  | .error e => .error e
  | .ok rs =>
    if "tags" ∈ t.cols then mapExcept normTagsRow rs
    else .ok rs

def normTagsGroupRow (r : AppGroupRow) : Except TrainError AppGroupRow :=
  match normalize_tags_list r.tags "tags" with
  | .ok tags => .ok { r with tags := .plist (tags.map .pstr) }
  | .error e => .error e

def normPidsGroupRow (r : AppGroupRow) : Except TrainError AppGroupRow :=
  match parse_process_ids r.process_ids with
  | .ok ids => .ok { r with process_ids := .plist (ids.map .pint) }
  | .error e => .error e

def normalizeAppGroups (t : Table AppGroupRow) : Except TrainError (List AppGroupRow) :=
  match to_bool t.cols t.rows groupCell groupSetCell APP_GROUP_BOOL_COLS .app_groups with
  | .error e => .error e
  | .ok rs =>
    match (if "tags" ∈ t.cols then mapExcept normTagsGroupRow rs else .ok rs) with
    | .error e => .error e
    | .ok rs2 =>
      if "process_ids" ∈ t.cols then mapExcept normPidsGroupRow rs2
      else .ok rs2

/-- one flattened training row: the process observation with its left-joined
parent snapshot and (optional) matching app group. -/
structure FlatRow where
  proc : ProcessRow
  snap : Option SnapshotRow
  group : Option AppGroupRow
  deriving DecidableEq

-- `processes.merge(snapshots, on="snapshot_id", how="left")`: left order is
-- kept, each left row is repeated for every matching right row, an
-- unmatched left row survives once with missing right columns.
def mergeSnapshots (procs : List ProcessRow) (snaps : List SnapshotRow) :
    List (ProcessRow × Option SnapshotRow) :=
  procs.flatMap (fun p =>
    let ms := snaps.filter (fun s => s.snapshot_id == p.snapshot_id)
    if ms.isEmpty then [(p, Option.none)] else ms.map (fun s => (p, some s)))

-- `df.merge(app_groups, on=["snapshot_id", "app_group_id"], how="left")`,
-- executed only when the app_groups table is non-empty.
def mergeGroups (rows : List (ProcessRow × Option SnapshotRow))
    (groups : List AppGroupRow) : List FlatRow :=
  if groups.isEmpty then rows.map (fun r => ⟨r.1, r.2, Option.none⟩)
  else rows.flatMap (fun r =>
    let gs := groups.filter (fun g =>
      g.snapshot_id == r.1.snapshot_id && g.app_group_id == r.1.app_group_id)
    if gs.isEmpty then [⟨r.1, r.2, Option.none⟩]
    else gs.map (fun g => ⟨r.1, r.2, some g⟩))

def flatKey (r : FlatRow) : PvKey2 := toLex (pvKey r.proc.snapshot_id, pvKey r.proc.pid)

def flatLe (a b : FlatRow) : Prop := flatKey a ≤ flatKey b

instance : DecidableRel flatLe := fun a b => inferInstanceAs (Decidable (flatKey a ≤ flatKey b))

instance : IsTotal FlatRow flatLe := ⟨fun a b => le_total (flatKey a) (flatKey b)⟩

instance : IsTrans FlatRow flatLe := ⟨fun _ _ _ h1 h2 => le_trans h1 h2⟩

-- `df.sort_values(["snapshot_id", "pid"])`.
def sortFlat (l : List FlatRow) : List FlatRow := List.insertionSort flatLe l

-- Sequencing of the source's straight-line checks: a failed check raises,
-- a passed one falls through to the rest of the function.
def seqE {ε α : Type} (c : Except ε Unit) (k : Except ε α) : Except ε α :=
  match c with
  | .ok _ => k
  | .error e => .error e

-- The referential-integrity check on snapshot ids (both the processes and
-- the app_groups variant).
def missingRefs (ids : List PyVal) (snapshotIds : List PyVal) : List PyVal :=
  sortPv ((uniqueVals ids).filter (fun v => v ∉ snapshotIds))

def fkSnapshotCheck (src : TableName) (ids : List PyVal)
    (snapshotIds : List PyVal) : Except TrainError Unit :=
  if (missingRefs ids snapshotIds).isEmpty then .ok ()
  else .error (.missingSnapshotRefs src ((missingRefs ids snapshotIds).take 5))

-- `processes[["snapshot_id", "app_group_id"]].dropna(subset=["app_group_id"])`.
def processGroupPairs (store : Store) : List (PyVal × PyVal) :=
  store.processes.rows.filterMap (fun p =>
    if pyIsNA p.app_group_id then Option.none else some (p.snapshot_id, p.app_group_id))

-- the key pairs of `app_groups.dropna(subset=["snapshot_id", "app_group_id"])`.
def appGroupKeyPairs (store : Store) : List (PyVal × PyVal) :=
  store.app_groups.rows.filterMap (fun g =>
    if pyIsNA g.snapshot_id ∨ pyIsNA g.app_group_id then Option.none
    else some (g.snapshot_id, g.app_group_id))

-- the referenced (snapshot id, group key) pairs with no AppGroup row.
def danglingPairs (store : Store) : List (PyVal × PyVal) :=
  (processGroupPairs store).filter (fun k => k ∉ appGroupKeyPairs store)

-- The orphan group-membership check (dataset.py lines 430-450).
def danglingCheck (store : Store) : Except TrainError Unit :=
  if "app_group_id" ∈ store.processes.cols then
    if (processGroupPairs store).isEmpty then .ok ()
    else
      if (sortPairs (dedupKeep (danglingPairs store))).isEmpty then .ok ()
      else .error (.danglingGroup ((sortPairs (dedupKeep (danglingPairs store))).take 5))
  else .ok ()

/-- Loader/Validator: the body of `load_snapshots_as_frame`, from the
existence test through every validation check, normalization, the two left
joins and the final ordering, in source order. -/
def load_snapshots_as_frame (store : Store) : Except TrainError (List FlatRow) :=
  if store.present = false then .error (.storeNotFound store.path)
  else
    seqE (ensure_required_columns .snapshots store.snapshots.cols ["snapshot_id"]) <|
    seqE (ensure_required_columns .processes store.processes.cols ["pid", "snapshot_id"]) <|
    seqE (ensure_required_columns .app_groups store.app_groups.cols ["app_group_id", "snapshot_id"]) <|
    seqE (ensure_no_nan .snapshots store.snapshots.rows snapCell ["snapshot_id"]) <|
    seqE (ensure_no_nan .processes store.processes.rows procCell ["snapshot_id", "pid"]) <|
    seqE (ensure_no_nan .app_groups store.app_groups.rows groupCell ["snapshot_id", "app_group_id"]) <|
    seqE (ensure_no_infinite .snapshots store.snapshots.cols store.snapshots.rows snapCell SNAPSHOT_NUMERIC_COLS) <|
    seqE (ensure_no_infinite .processes store.processes.cols store.processes.rows procCell PROCESS_NUMERIC_COLS) <|
    seqE (ensure_no_infinite .app_groups store.app_groups.cols store.app_groups.rows groupCell APP_GROUP_NUMERIC_COLS) <|
    seqE (fkSnapshotCheck .processes (store.processes.rows.map (·.snapshot_id))
      (uniqueVals (store.snapshots.rows.map (·.snapshot_id)))) <|
    seqE (ensure_unique_keys .processes store.processes.rows (fun p => (p.snapshot_id, p.pid))) <|
    seqE (ensure_unique_keys .app_groups store.app_groups.rows (fun g => (g.snapshot_id, g.app_group_id))) <|
    seqE (fkSnapshotCheck .app_groups (store.app_groups.rows.map (·.snapshot_id))
      (uniqueVals (store.snapshots.rows.map (·.snapshot_id)))) <|
    seqE (danglingCheck store) <|
    (if store.processes.rows.isEmpty then .ok []
     else
       match normalizeSnapshots store.snapshots, normalizeProcesses store.processes,
           normalizeAppGroups store.app_groups with
       | .ok snaps, .ok procs, .ok groups =>
         .ok (sortFlat (mergeGroups (mergeSnapshots procs snaps) groups))
       | .error e, _, _ => .error e
       | .ok _, .error e, _ => .error e
       | .ok _, .ok _, .error e => .error e)

/-! ### `features.py`: the Feature Builder -/

-- `_NUMERIC_COLS` (features.py).
def NUMERIC_COLS : List String :=
  ["cpu_share_1s", "cpu_share_10s", "io_read_bytes", "io_write_bytes",
   "rss_mb", "swap_mb", "voluntary_ctx", "involuntary_ctx", "nice",
   "ionice_class", "ionice_prio",
   "load_avg_one", "load_avg_five", "load_avg_fifteen", "mem_used_kb",
   "mem_available_kb", "mem_total_kb", "swap_total_kb", "swap_used_kb",
   "time_since_last_input_ms", "cpu_user", "cpu_system", "cpu_idle",
   "cpu_iowait", "psi_cpu_some_avg10", "psi_cpu_some_avg60",
   "psi_io_some_avg10", "psi_mem_some_avg10", "psi_mem_full_avg10",
   "total_cpu_share", "total_io_read_bytes", "total_io_write_bytes",
   "total_rss_mb"]

-- `_BOOL_COLS` (features.py).
def BOOL_COLS : List String :=
  ["user_active", "bad_responsiveness", "has_tty", "has_gui_window",
   "is_focused_window", "env_has_display", "env_has_wayland", "env_ssh",
   "is_audio_client", "has_active_stream", "has_gui_window_group",
   "is_focused_group"]

-- `_CAT_COLS` (features.py).
def CAT_COLS : List String :=
  ["process_type", "app_name", "priority_class", "teacher_priority_class",
   "env_term", "tags_joined"]

/-- the builder's input: a pandas DataFrame as a declared column list plus
rows of dynamic cells. -/
structure Frame where
  cols : List String
  rows : List (List (String × PyVal))
  deriving DecidableEq

-- `_ensure_column`: the column's values when declared, otherwise a
-- constant default column of the frame's length.
def ensure_column (cols : List String) (rows : List (List (String × PyVal)))
    (column : String) (default : PyVal) : List PyVal :=
  if column ∈ cols then rows.map (fun r => cellIn r column)
  else rows.map (fun _ => default)

-- `.astype("boolean")` on one object cell: bool-likes and missing markers
-- convert, anything else makes pandas raise (a TypeError outside the spec's
-- taxonomy, represented by `BuildError.boolCast`).
def astypeBoolValue (v : PyVal) : Option (Option Bool) :=
  if pyIsNA v then some Option.none
  else match v with
  | .pbool b => some (some b)
  | .pint n => if n = 0 ∨ n = 1 then some (some (n = 1)) else Option.none
  | .pfloat (.fin q) => if q = 0 ∨ q = 1 then some (some (q = 1)) else Option.none
  | _ => Option.none

-- `.astype("string")` on one object cell: missing stays missing, any other
-- value becomes its `str(...)` text.
def astypeStringValue (v : PyVal) : Option String :=
  if pyIsNA v then Option.none else some (pyStr v)

inductive BuildError
  | err (e : TrainError)
  | boolCast (col : String)
  deriving DecidableEq

def boolColumnCast (vals : List PyVal) (col : String) :
    Except BuildError (List (Option Bool)) :=
  if vals.all (fun v => (astypeBoolValue v).isSome) then
    .ok (vals.map (fun v => (astypeBoolValue v).getD Option.none))
  else .error (.boolCast col)

-- Python string sort order (code-point lexicographic).
def strLe (a b : String) : Prop := a.data ≤ b.data

instance : DecidableRel strLe := fun a b => inferInstanceAs (Decidable (a.data ≤ b.data))

instance : IsTotal String strLe := ⟨fun a b => le_total a.data b.data⟩

instance : IsTrans String strLe := ⟨fun _ _ _ h1 h2 => le_trans h1 h2⟩

-- `_join_tags`, the closure inside `_prepare_tags_column` (Python sets and
-- tuples have no cell representation here; list cells cover the data the
-- loader produces).
def join_tags (value : PyVal) : String :=
  match value with
  | .plist l =>
    let tags := List.insertionSort strLe (l.map pyStr)
    if tags.isEmpty then "unknown" else String.intercalate "|" tags
  | v => if pyIsNA v then "unknown" else pyStr v

def prepare_tags_column (series : List PyVal) : List String := series.map join_tags

-- `pd.to_numeric(...).fillna(0.0)` on one cell.
def numericFeature (v : PyVal) : PFloat :=
  match toNumeric v with
  | .nan => .fin 0
  | x => x

-- `.fillna(False).astype(int)` on one nullable-boolean cell.
def boolFeatureInt (ob : Option Bool) : Int := if ob.getD false then 1 else 0

-- `.astype("string").fillna("unknown")` on one cell.
def catFeature (v : PyVal) : String := (astypeStringValue v).getD "unknown"

inductive FeatCol
  | nums (l : List PFloat)
  | ints (l : List Int)
  | strs (l : List String)
  deriving DecidableEq

def FeatCol.length : FeatCol → Nat
  | .nums l => l.length
  | .ints l => l.length
  | .strs l => l.length

/-- the 4-tuple `(X, y, group_id, cat_feature_indices)`; `X` is kept as its
ordered columns (`column_order` paired with each column's values). -/
structure BuildOutput where
  X : List (String × FeatCol)
  y : List PyVal
  group_id : List PyVal
  cat_feature_indices : List Nat
  deriving DecidableEq

-- `df.loc[mask]` / `series.loc[mask]` for a positionally aligned mask.
def maskFilter {α : Type} (mask : List Bool) (xs : List α) : List α :=
  ((mask.zip xs).filter (fun p => p.1)).map (fun p => p.2)

def seriesOf (df : Frame) (c : String) : List PyVal :=
  if c ∈ df.cols then df.rows.map (fun r => cellIn r c)
  else df.rows.map (fun _ => .pfloat .nan)

-- `teacher.combine_first(resp)`: the per-position target series.
def targetOf (df : Frame) : List PyVal :=
  List.zipWith (fun t r => if pyIsNA t then r else t)
    (seriesOf df "teacher_score") (seriesOf df "responsiveness_score")

def validMask (df : Frame) : List Bool := (targetOf df).map (fun v => !(pyIsNA v))

-- `work_df = df.loc[valid_mask]`.
def workRows (df : Frame) : List (List (String × PyVal)) :=
  maskFilter (validMask df) df.rows

def numericFeatsOf (cols : List String) (work : List (List (String × PyVal))) :
    List (String × FeatCol) :=
  NUMERIC_COLS.map (fun col =>
    (col, FeatCol.nums ((ensure_column cols work col (.pfloat (.fin 0))).map numericFeature)))

def boolFeatOf (cols : List String) (work : List (List (String × PyVal)))
    (col : String) : Except BuildError (String × FeatCol) :=
  match boolColumnCast (ensure_column cols work col (.pbool false)) col with
  | .ok bs => .ok (col, FeatCol.ints (bs.map boolFeatureInt))
  | .error e => .error e

def boolFeatsOf (cols : List String) (work : List (List (String × PyVal))) :
    Except BuildError (List (String × FeatCol)) :=
  mapExcept (boolFeatOf cols work) BOOL_COLS

-- the `tags_joined` column synthesized for the surviving rows.
def tagsJoinedOf (cols : List String) (work : List (List (String × PyVal))) :
    List String :=
  if "tags" ∈ cols then prepare_tags_column (work.map (fun r => cellIn r "tags"))
  else work.map (fun _ => "unknown")

-- `work_df["tags_joined"] = ...` (assignment appends or overwrites).
def workTagged (cols : List String) (work : List (List (String × PyVal))) :
    List (List (String × PyVal)) :=
  List.zipWith (fun r tj => updateCells r "tags_joined" (.pstr tj)) work (tagsJoinedOf cols work)

def cols2Of (cols : List String) : List String :=
  if "tags_joined" ∈ cols then cols else cols ++ ["tags_joined"]

-- the categorical loop: features in order, the collected
-- `cat_feature_indices`, and the running `len(column_order)`.
def catAccOf (cols2 : List String) (work2 : List (List (String × PyVal))) :
    List (String × FeatCol) × List Nat × Nat :=
  CAT_COLS.foldl (fun acc col =>
    (acc.1 ++ [(col, FeatCol.strs ((ensure_column cols2 work2 col (.pstr "unknown")).map catFeature))],
     acc.2.1 ++ [acc.2.2], acc.2.2 + 1))
    (([] : List (String × FeatCol)), ([] : List Nat), NUMERIC_COLS.length + BOOL_COLS.length)

/-- Feature Builder: `build_feature_matrix`. The numeric and boolean loops
each append exactly their column to `column_order`, so the categorical
loop's `len(column_order)` reads start from the combined length of the two
fixed lists and grow by one per categorical column. -/
def build_feature_matrix (df : Frame) : Except BuildError BuildOutput :=
  if df.rows.isEmpty then .error (.err .emptyFrame)
  else if "snapshot_id" ∉ df.cols then .error (.err .noSnapshotCol)
  else if (validMask df).any (fun b => b) = false then .error (.err .noTargets)
  else
    match boolFeatsOf df.cols (workRows df) with
    | .error e => .error e
    | .ok boolFeats =>
      let catAcc := catAccOf (cols2Of df.cols) (workTagged df.cols (workRows df))
      .ok { X := numericFeatsOf df.cols (workRows df) ++ boolFeats ++ catAcc.1,
            y := maskFilter (validMask df) (targetOf df),
            group_id := (workRows df).map (fun r => cellIn r "snapshot_id"),
            cat_feature_indices := catAcc.2.1 }

/-! ### Generic list lemmas -/

theorem zipWith_map_same {α β γ δ : Type} (f : β → γ → δ) (g : α → β) (h : α → γ)
    (l : List α) :
    List.zipWith f (l.map g) (l.map h) = l.map (fun x => f (g x) (h x)) := by
  induction l with
  | nil => rfl
  | cons x xs ih => simp [ih]

theorem maskFilter_map_self {α : Type} (p : α → Bool) (l : List α) :
    maskFilter (l.map p) l = l.filter p := by
  induction l with
  | nil => rfl
  | cons x xs ih =>
    by_cases h : p x <;> simp [maskFilter, h, List.filter_cons] at ih ⊢ <;> exact ih

theorem filter_of_map {α β : Type} (f : α → β) (p : β → Bool) (l : List α) :
    (l.map f).filter p = (l.filter (fun x => p (f x))).map f := by
  induction l with
  | nil => rfl
  | cons x xs ih => by_cases h : p (f x) <;> simp [List.filter_cons, h, ih]

theorem mapExcept_ok_forall {α β ε : Type} {f : α → Except ε β} :
    ∀ {l : List α} {ys : List β}, mapExcept f l = .ok ys →
      List.Forall₂ (fun a b => f a = .ok b) l ys := by
  intro l
  induction l with
  | nil => intro ys h; cases h; exact .nil
  | cons x xs ih =>
    intro ys h
    unfold mapExcept at h
    cases hx : f x with
    | error e => rw [hx] at h; cases h
    | ok y =>
      rw [hx] at h
      cases hxs : mapExcept f xs with
      | error e => rw [hxs] at h; cases h
      | ok ys2 => rw [hxs] at h; cases h; exact .cons hx (ih hxs)

theorem forall₂_map_fst {α β γ : Type} {l : List α} {ys : List (β × γ)}
    {g : α → β} (hrel : List.Forall₂ (fun a b => (b : β × γ).1 = g a) l ys) :
    ys.map Prod.fst = l.map g := by
  induction hrel with
  | nil => rfl
  | cons h _ ih => simp [ih, h]

/-! ### Structure of a successful `build_feature_matrix` run -/

theorem build_ok_elim {df : Frame} {out : BuildOutput}
    (h : build_feature_matrix df = .ok out) :
    df.rows.isEmpty = false ∧ "snapshot_id" ∈ df.cols ∧
    (validMask df).any (fun b => b) = true ∧
    ∃ bf, boolFeatsOf df.cols (workRows df) = .ok bf ∧
      out = { X := numericFeatsOf df.cols (workRows df) ++ bf ++
                  (catAccOf (cols2Of df.cols) (workTagged df.cols (workRows df))).1,
              y := maskFilter (validMask df) (targetOf df),
              group_id := (workRows df).map (fun r => cellIn r "snapshot_id"),
              cat_feature_indices :=
                (catAccOf (cols2Of df.cols) (workTagged df.cols (workRows df))).2.1 } := by
  unfold build_feature_matrix at h
  by_cases h1 : df.rows.isEmpty = true
  · rw [if_pos h1] at h; cases h
  rw [if_neg h1] at h
  by_cases h2 : "snapshot_id" ∉ df.cols
  · rw [if_pos h2] at h; cases h
  rw [if_neg h2] at h
  by_cases h3 : (validMask df).any (fun b => b) = false
  · rw [if_pos h3] at h; cases h
  rw [if_neg h3] at h
  cases hb : boolFeatsOf df.cols (workRows df) with
  | error e => rw [hb] at h; cases h
  | ok bf =>
    rw [hb] at h
    simp only [Except.ok.injEq] at h
    exact ⟨by simpa using h1, not_not.mp h2, by simpa using h3, bf, rfl, h.symm⟩

theorem boolFeatOf_ok_fst {cols : List String} {work : List (List (String × PyVal))}
    {col : String} {y : String × FeatCol} (h : boolFeatOf cols work col = .ok y) :
    y.1 = col := by
  unfold boolFeatOf at h
  cases hb : boolColumnCast (ensure_column cols work col (.pbool false)) col with
  | error e => rw [hb] at h; cases h
  | ok bs => rw [hb] at h; cases h; rfl

theorem boolFeatsOf_ok_names {cols : List String} {work : List (List (String × PyVal))}
    {bf : List (String × FeatCol)} (h : boolFeatsOf cols work = .ok bf) :
    bf.map Prod.fst = BOOL_COLS := by
  have h2 := mapExcept_ok_forall h
  have h3 : List.Forall₂ (fun a (b : String × FeatCol) => b.1 = id a) BOOL_COLS bf :=
    h2.imp (fun _ _ ha => boolFeatOf_ok_fst ha)
  simpa using forall₂_map_fst h3

theorem numericFeatsOf_names (cols : List String) (work : List (List (String × PyVal))) :
    (numericFeatsOf cols work).map Prod.fst = NUMERIC_COLS := rfl

theorem catAccOf_spec (cols2 : List String) (work2 : List (List (String × PyVal))) :
    ((catAccOf cols2 work2).1.map Prod.fst = CAT_COLS) ∧
    (catAccOf cols2 work2).2.1 = [45, 46, 47, 48, 49, 50] :=
  ⟨rfl, rfl⟩

/-- Claim C4: on every input accepted by `build_feature_matrix`, the feature
table's columns are exactly the fixed numeric list, then the fixed
boolean-derived list, then the fixed categorical list, in declared order,
and `cat_feature_indices` is exactly the list of integer positions of the
categorical columns within that column order. -/
theorem c4_column_contract (df : Frame) (out : BuildOutput)
    (h : build_feature_matrix df = .ok out) :
    out.X.map Prod.fst = NUMERIC_COLS ++ BOOL_COLS ++ CAT_COLS ∧
    out.cat_feature_indices =
      CAT_COLS.map (fun c => (NUMERIC_COLS ++ BOOL_COLS ++ CAT_COLS).indexOf c) := by
  obtain ⟨-, -, -, bf, hbf, rfl⟩ := build_ok_elim h
  constructor
  · simp only [List.map_append]
    rw [numericFeatsOf_names, boolFeatsOf_ok_names hbf, (catAccOf_spec _ _).1]
  · show (catAccOf (cols2Of df.cols) (workTagged df.cols (workRows df))).2.1 = _
    rw [(catAccOf_spec _ _).2]
    decide

instance {ε α : Type} [DecidableEq ε] [DecidableEq α] : DecidableEq (Except ε α) :=
  fun x y =>
    match x, y with
    | .ok a, .ok b => if h : a = b then isTrue (by rw [h]) else isFalse (by simp [h])
    | .error a, .error b => if h : a = b then isTrue (by rw [h]) else isFalse (by simp [h])
    | .ok _, .error _ => isFalse (by simp)
    | .error _, .ok _ => isFalse (by simp)

def dfW : Frame :=
  ⟨["snapshot_id", "teacher_score"],
   [[("snapshot_id", .pint 1), ("teacher_score", .pint 1)]]⟩

def outW : BuildOutput :=
  match build_feature_matrix dfW with
  | .ok o => o
  | .error _ => ⟨[], [], [], []⟩

/-- Witness for C4: the contract instantiated on a concrete accepted frame. -/
theorem c4_column_contract_witness :
    outW.X.map Prod.fst = NUMERIC_COLS ++ BOOL_COLS ++ CAT_COLS ∧
    outW.cat_feature_indices =
      CAT_COLS.map (fun c => (NUMERIC_COLS ++ BOOL_COLS ++ CAT_COLS).indexOf c) :=
  c4_column_contract dfW outW (by decide)

/-! ### Row-level view of the target-selection policy -/

-- The row's teacher-score cell as the builder sees it (missing column reads
-- as the all-NaN series the source substitutes).
def teacherCellOf (df : Frame) (r : List (String × PyVal)) : PyVal :=
  if "teacher_score" ∈ df.cols then cellIn r "teacher_score" else .pfloat .nan

def respCellOf (df : Frame) (r : List (String × PyVal)) : PyVal :=
  if "responsiveness_score" ∈ df.cols then cellIn r "responsiveness_score" else .pfloat .nan

-- `teacher.combine_first(resp)` evaluated at one row.
def rowTarget (df : Frame) (r : List (String × PyVal)) : PyVal :=
  if pyIsNA (teacherCellOf df r) then respCellOf df r else teacherCellOf df r

-- The rows that survive target selection.
def survivors (df : Frame) : List (List (String × PyVal)) :=
  df.rows.filter (fun r => !(pyIsNA (rowTarget df r)))

theorem targetOf_eq_map (df : Frame) : targetOf df = df.rows.map (rowTarget df) := by
  unfold targetOf seriesOf
  by_cases h1 : "teacher_score" ∈ df.cols <;> by_cases h2 : "responsiveness_score" ∈ df.cols
  · rw [if_pos h1, if_pos h2, zipWith_map_same]
    exact List.map_congr_left (fun r _ => by simp [rowTarget, teacherCellOf, respCellOf, h1, h2])
  · rw [if_pos h1, if_neg h2, zipWith_map_same]
    exact List.map_congr_left (fun r _ => by simp [rowTarget, teacherCellOf, respCellOf, h1, h2])
  · rw [if_neg h1, if_pos h2, zipWith_map_same]
    exact List.map_congr_left (fun r _ => by simp [rowTarget, teacherCellOf, respCellOf, h1, h2])
  · rw [if_neg h1, if_neg h2, zipWith_map_same]
    exact List.map_congr_left (fun r _ => by simp [rowTarget, teacherCellOf, respCellOf, h1, h2])

theorem validMask_eq (df : Frame) :
    validMask df = df.rows.map (fun r => !(pyIsNA (rowTarget df r))) := by
  rw [validMask, targetOf_eq_map, List.map_map]
  rfl

theorem workRows_eq (df : Frame) : workRows df = survivors df := by
  rw [workRows, validMask_eq, maskFilter_map_self, survivors]

theorem y_eq (df : Frame) :
    maskFilter (validMask df) (targetOf df) = (survivors df).map (rowTarget df) := by
  rw [validMask_eq, targetOf_eq_map, survivors]
  have : df.rows.map (fun r => !(pyIsNA (rowTarget df r)))
      = (df.rows.map (rowTarget df)).map (fun v => !(pyIsNA v)) := by
    rw [List.map_map]; rfl
  rw [this, maskFilter_map_self, filter_of_map]

/-- Claim C1: the target selection policy of `build_feature_matrix`: per row
the target is the teacher score when present, otherwise the responsiveness
score; a row is dropped (missing from the target vector, which lists exactly
the surviving rows' targets in order) precisely when both are missing; and
when no row has a usable target the builder fails with the
no-available-targets (`noTargets`) error. -/
theorem c1_target_policy (df : Frame) :
    (∀ r, pyIsNA (teacherCellOf df r) = false → rowTarget df r = teacherCellOf df r) ∧
    (∀ r, pyIsNA (teacherCellOf df r) = true → rowTarget df r = respCellOf df r) ∧
    (∀ r, pyIsNA (rowTarget df r) = true ↔
      (pyIsNA (teacherCellOf df r) = true ∧ pyIsNA (respCellOf df r) = true)) ∧
    (∀ out, build_feature_matrix df = .ok out →
      out.y = (survivors df).map (rowTarget df) ∧
      out.group_id = (survivors df).map (fun r => cellIn r "snapshot_id")) ∧
    (df.rows.isEmpty = false → "snapshot_id" ∈ df.cols →
      (∀ r ∈ df.rows, pyIsNA (rowTarget df r) = true) →
      build_feature_matrix df = .error (.err .noTargets)) := by
  refine ⟨?_, ?_, ?_, ?_, ?_⟩
  · intro r h; unfold rowTarget; rw [h]; simp
  · intro r h; unfold rowTarget; rw [h]; simp
  · intro r
    unfold rowTarget
    by_cases h : pyIsNA (teacherCellOf df r) <;> simp [h]
  · intro out h
    obtain ⟨-, -, -, bf, hbf, rfl⟩ := build_ok_elim h
    exact ⟨y_eq df, by rw [workRows_eq]⟩
  · intro h1 h2 h3
    unfold build_feature_matrix
    rw [if_neg (by simp [h1]), if_neg (by simp [h2]), if_pos]
    rw [validMask_eq]
    simp only [List.any_eq_false, List.mem_map]
    rintro b ⟨r, hr, rfl⟩
    simp [h3 r hr]

def dfAllNA : Frame :=
  ⟨["snapshot_id", "teacher_score"],
   [[("snapshot_id", .pint 1), ("teacher_score", .pfloat .nan)],
    [("snapshot_id", .pint 2)]]⟩

/-- Witness for C1: the policy instantiated on a concrete frame with one
teacher-scored row, plus the no-usable-target failure on a frame whose rows
all lack both scores. -/
theorem c1_target_policy_witness :
    (outW.y = (survivors dfW).map (rowTarget dfW) ∧
     outW.group_id = (survivors dfW).map (fun r => cellIn r "snapshot_id")) ∧
    build_feature_matrix dfAllNA = .error (.err .noTargets) :=
  ⟨(c1_target_policy dfW).2.2.2.1 outW (by decide),
   (c1_target_policy dfAllNA).2.2.2.2 (by decide) (by decide) (by decide)⟩

/-! ### Length bookkeeping for C7 -/

theorem ensure_column_length (cols : List String) (work : List (List (String × PyVal)))
    (col : String) (d : PyVal) : (ensure_column cols work col d).length = work.length := by
  unfold ensure_column
  split <;> simp

theorem boolColumnCast_ok_length {vals : List PyVal} {col : String}
    {bs : List (Option Bool)} (h : boolColumnCast vals col = .ok bs) :
    bs.length = vals.length := by
  unfold boolColumnCast at h
  split at h
  · cases h; simp
  · cases h

theorem boolFeatOf_ok_length {cols : List String} {work : List (List (String × PyVal))}
    {col : String} {y : String × FeatCol} (h : boolFeatOf cols work col = .ok y) :
    y.2.length = work.length := by
  unfold boolFeatOf at h
  cases hb : boolColumnCast (ensure_column cols work col (.pbool false)) col with
  | error e => rw [hb] at h; cases h
  | ok bs =>
    rw [hb] at h; cases h
    simp [FeatCol.length, boolColumnCast_ok_length hb, ensure_column_length]

theorem tagsJoinedOf_length (cols : List String) (work : List (List (String × PyVal))) :
    (tagsJoinedOf cols work).length = work.length := by
  unfold tagsJoinedOf prepare_tags_column
  split <;> simp

theorem workTagged_length (cols : List String) (work : List (List (String × PyVal))) :
    (workTagged cols work).length = work.length := by
  unfold workTagged
  simp [tagsJoinedOf_length]

theorem forall₂_mem_right {α β : Type} {R : α → β → Prop} :
    ∀ {l : List α} {ys : List β}, List.Forall₂ R l ys → ∀ b ∈ ys, ∃ a ∈ l, R a b := by
  intro l ys h
  induction h with
  | nil => intro b hb; cases hb
  | cons hr _ ih =>
    intro b hb
    rcases List.mem_cons.mp hb with rfl | hb2
    · exact ⟨_, List.mem_cons_self _ _, hr⟩
    · obtain ⟨a, ha, hRa⟩ := ih b hb2
      exact ⟨a, List.mem_cons_of_mem _ ha, hRa⟩

-- the categorical part of the fold, as a map (definitional).
theorem catAccOf_fst_eq (cols2 : List String) (work2 : List (List (String × PyVal))) :
    (catAccOf cols2 work2).1 = CAT_COLS.map (fun col =>
      (col, FeatCol.strs ((ensure_column cols2 work2 col (.pstr "unknown")).map catFeature))) :=
  rfl

/-- Claim C7: on every input where `build_feature_matrix` succeeds, every
feature column, the target vector and the group-id vector have the same
number of rows, and the group-id vector is the snapshot id of each surviving
row in row order. -/
theorem c7_row_alignment (df : Frame) (out : BuildOutput)
    (h : build_feature_matrix df = .ok out) :
    (∀ p ∈ out.X, p.2.length = out.y.length) ∧
    out.group_id.length = out.y.length ∧
    out.group_id = (survivors df).map (fun r => cellIn r "snapshot_id") := by
  obtain ⟨-, -, -, bf, hbf, rfl⟩ := build_ok_elim h
  have hy : maskFilter (validMask df) (targetOf df) = (survivors df).map (rowTarget df) := y_eq df
  have hylen : (maskFilter (validMask df) (targetOf df)).length = (survivors df).length := by
    rw [hy]; simp
  have hwork : workRows df = survivors df := workRows_eq df
  refine ⟨?_, ?_, ?_⟩
  · intro p hp
    simp only at hp hylen ⊢
    rw [hylen]
    rcases List.mem_append.mp hp with hp1 | hp2
    · rcases List.mem_append.mp hp1 with hnum | hbool
      · obtain ⟨col, -, rfl⟩ := List.mem_map.mp hnum
        simp [FeatCol.length, ensure_column_length, hwork]
      · obtain ⟨col, -, hrel⟩ := forall₂_mem_right (mapExcept_ok_forall hbf) p hbool
        rw [boolFeatOf_ok_length hrel, hwork]
    · rw [catAccOf_fst_eq] at hp2
      obtain ⟨col, -, rfl⟩ := List.mem_map.mp hp2
      simp [FeatCol.length, ensure_column_length, workTagged_length, hwork]
  · simp [hylen, hwork]
  · simp [hwork]

/-- Witness for C7: row alignment on a concrete accepted frame. -/
theorem c7_row_alignment_witness :
    (∀ p ∈ outW.X, p.2.length = outW.y.length) ∧
    outW.group_id.length = outW.y.length ∧
    outW.group_id = (survivors dfW).map (fun r => cellIn r "snapshot_id") :=
  c7_row_alignment dfW outW (by decide)

/-! ### The synthesized `tags_joined` column -/

theorem cellIn_updateCells (cells : List (String × PyVal)) (c : String) (v : PyVal) :
    cellIn (updateCells cells c v) c = v := by
  induction cells with
  | nil => simp [updateCells, cellIn, List.lookup]
  | cons p rest ih =>
    obtain ⟨k, w⟩ := p
    by_cases h : k = c
    · subst h; simp [updateCells, cellIn, List.lookup]
    · have hbc : (c == k) = false := by simp [Ne.symm h]
      simp only [updateCells, h, if_false, cellIn, List.lookup, hbc] at ih ⊢
      exact ih

-- per-row form of the synthesized column.
def tagRowFn (cols : List String) (r : List (String × PyVal)) : String :=
  if "tags" ∈ cols then join_tags (cellIn r "tags") else "unknown"

theorem tagsJoinedOf_eq_map (cols : List String) (work : List (List (String × PyVal))) :
    tagsJoinedOf cols work = work.map (tagRowFn cols) := by
  unfold tagsJoinedOf prepare_tags_column tagRowFn
  split
  · rw [List.map_map]
    exact List.map_congr_left (fun r _ => by simp_all)
  · exact List.map_congr_left (fun r _ => by simp_all)

theorem workTagged_eq_map (cols : List String) (work : List (List (String × PyVal))) :
    workTagged cols work
      = work.map (fun r => updateCells r "tags_joined" (.pstr (tagRowFn cols r))) := by
  unfold workTagged
  rw [tagsJoinedOf_eq_map]
  have h := zipWith_map_same (fun r tj => updateCells r "tags_joined" (.pstr tj))
    id (tagRowFn cols) work
  simpa using h

theorem mem_tags_joined_cols2 (cols : List String) : "tags_joined" ∈ cols2Of cols := by
  unfold cols2Of
  split
  · assumption
  · simp

theorem catFeature_pstr (s : String) : catFeature (.pstr s) = s := by
  simp [catFeature, astypeStringValue, pyIsNA, pyStr]

-- the tags_joined entry the categorical loop produces.
theorem tags_joined_entry (cols : List String) (work : List (List (String × PyVal))) :
    ("tags_joined",
      FeatCol.strs ((ensure_column (cols2Of cols) (workTagged cols work) "tags_joined"
        (.pstr "unknown")).map catFeature))
      = ("tags_joined", FeatCol.strs (work.map (tagRowFn cols))) := by
  rw [ensure_column, if_pos (mem_tags_joined_cols2 cols), workTagged_eq_map]
  rw [List.map_map, List.map_map]
  refine congrArg _ (congrArg _ (List.map_congr_left (fun r _ => ?_)))
  simp [Function.comp, cellIn_updateCells, catFeature_pstr]

theorem mapExcept_error {α β ε : Type} {f : α → Except ε β} :
    ∀ {l : List α} {e : ε}, mapExcept f l = .error e → ∃ a ∈ l, f a = .error e := by
  intro l
  induction l with
  | nil => intro e h; cases h
  | cons x xs ih =>
    intro e h
    unfold mapExcept at h
    cases hx : f x with
    | error e2 => rw [hx] at h; cases h; exact ⟨x, List.mem_cons_self _ _, hx⟩
    | ok y =>
      rw [hx] at h
      cases hxs : mapExcept f xs with
      | error e2 => rw [hxs] at h; cases h; obtain ⟨a, ha, hfa⟩ := ih hxs
                    exact ⟨a, List.mem_cons_of_mem _ ha, hfa⟩
      | ok ys => rw [hxs] at h; cases h

/-- Claim C6: for every surviving row the synthesized categorical feature
`tags_joined` is the row's tag list sorted lexically and joined by "|"
(duplicates preserved: a sorted permutation of the rendered tags), with
["b","a"] ↦ "a|b", ["a","a"] ↦ "a|a", and an empty or absent tag list
rendering as exactly "unknown". -/
theorem c6_tags_joined (df : Frame) (out : BuildOutput) :
    (build_feature_matrix df = .ok out → "tags" ∈ df.cols →
      ("tags_joined",
        FeatCol.strs ((survivors df).map (fun r => join_tags (cellIn r "tags")))) ∈ out.X) ∧
    (∀ l : List PyVal, l ≠ [] → ∃ ts, ts.Perm (l.map pyStr) ∧ List.Sorted strLe ts ∧
        join_tags (.plist l) = String.intercalate "|" ts) ∧
    join_tags (.plist [.pstr "b", .pstr "a"]) = "a|b" ∧
    join_tags (.plist [.pstr "a", .pstr "a"]) = "a|a" ∧
    join_tags (.plist []) = "unknown" ∧
    (build_feature_matrix df = .ok out → "tags" ∉ df.cols →
      ("tags_joined", FeatCol.strs ((survivors df).map (fun _ => "unknown"))) ∈ out.X) := by
  have hmem : ∀ (h : build_feature_matrix df = .ok out),
      ("tags_joined", FeatCol.strs ((workRows df).map (tagRowFn df.cols))) ∈ out.X := by
    intro h
    obtain ⟨-, -, -, bf, hbf, rfl⟩ := build_ok_elim h
    simp only []
    refine List.mem_append.mpr (Or.inr ?_)
    rw [catAccOf_fst_eq]
    refine List.mem_map.mpr ⟨"tags_joined", by decide, ?_⟩
    exact tags_joined_entry df.cols (workRows df)
  refine ⟨?_, ?_, by decide, by decide, by decide, ?_⟩
  · intro h htags
    have h2 := hmem h
    rw [workRows_eq] at h2
    have : (survivors df).map (tagRowFn df.cols)
        = (survivors df).map (fun r => join_tags (cellIn r "tags")) :=
      List.map_congr_left (fun r _ => by simp [tagRowFn, htags])
    rwa [this] at h2
  · intro l hl
    refine ⟨List.insertionSort strLe (l.map pyStr),
      List.perm_insertionSort strLe (l.map pyStr),
      List.sorted_insertionSort strLe (l.map pyStr), ?_⟩
    have hdef : join_tags (.plist l)
        = if (List.insertionSort strLe (l.map pyStr)).isEmpty then "unknown"
          else String.intercalate "|" (List.insertionSort strLe (l.map pyStr)) := rfl
    rw [hdef, if_neg]
    intro hemp
    rw [List.isEmpty_iff] at hemp
    have := (List.perm_insertionSort strLe (l.map pyStr)).length_eq
    rw [hemp] at this
    simp at this
    exact hl (List.length_eq_zero.mp this.symm)
  · intro h htags
    have h2 := hmem h
    rw [workRows_eq] at h2
    have : (survivors df).map (tagRowFn df.cols)
        = (survivors df).map (fun _ => "unknown") :=
      List.map_congr_left (fun r _ => by simp [tagRowFn, htags])
    rwa [this] at h2

def dfTagged : Frame :=
  ⟨["snapshot_id", "teacher_score", "tags"],
   [[("snapshot_id", .pint 1), ("teacher_score", .pint 1),
     ("tags", .plist [.pstr "b", .pstr "a"])]]⟩

def outTagged : BuildOutput :=
  match build_feature_matrix dfTagged with
  | .ok o => o
  | .error _ => ⟨[], [], [], []⟩

/-- Witness for C6: the synthesized column on a concrete accepted frame
carrying a two-tag list. -/
theorem c6_tags_joined_witness :
    ("tags_joined",
      FeatCol.strs ((survivors dfTagged).map (fun r => join_tags (cellIn r "tags")))) ∈ outTagged.X ∧
    (∃ ts, ts.Perm (List.map pyStr [PyVal.pstr "b", PyVal.pstr "a"]) ∧
      List.Sorted strLe ts ∧
      join_tags (.plist [.pstr "b", .pstr "a"]) = String.intercalate "|" ts) :=
  ⟨(c6_tags_joined dfTagged outTagged).1 (by decide) (by decide),
   (c6_tags_joined dfTagged outTagged).2.1 [.pstr "b", .pstr "a"] (by decide)⟩

theorem boolFeatOf_error {cols : List String} {work : List (List (String × PyVal))}
    {col : String} {e : BuildError} (h : boolFeatOf cols work col = .error e) :
    e = .boolCast col := by
  unfold boolFeatOf at h
  cases hb : boolColumnCast (ensure_column cols work col (.pbool false)) col with
  | error e2 =>
    rw [hb] at h
    cases h
    unfold boolColumnCast at hb
    split at hb
    · cases hb
    · cases hb; rfl
  | ok bs => rw [hb] at h; cases h

/-- Claim C10: `build_feature_matrix` never fails because of the contents of
a tags cell — its only failures are the empty-frame, missing-snapshot-id and
no-target errors plus a boolean-column cast failure — and the tag-joining
step is total: a non-null non-list scalar renders as its plain `str(...)`
form and a null scalar as "unknown". -/
theorem c10_tags_total (df : Frame) :
    (∀ e, build_feature_matrix df = .error e →
      e = .err .emptyFrame ∨ e = .err .noSnapshotCol ∨ e = .err .noTargets ∨
      ∃ col ∈ BOOL_COLS, e = .boolCast col) ∧
    (∀ v, pyIsNA v = false → (∀ l, v ≠ .plist l) → join_tags v = pyStr v) ∧
    join_tags (.pstr "abc") = "abc" ∧
    join_tags .none = "unknown" ∧
    join_tags (.pfloat .nan) = "unknown" := by
  refine ⟨?_, ?_, by decide, by decide, by decide⟩
  · intro e h
    unfold build_feature_matrix at h
    by_cases h1 : df.rows.isEmpty = true
    · rw [if_pos h1] at h; cases h; exact Or.inl rfl
    rw [if_neg h1] at h
    by_cases h2 : "snapshot_id" ∉ df.cols
    · rw [if_pos h2] at h; cases h; exact Or.inr (Or.inl rfl)
    rw [if_neg h2] at h
    by_cases h3 : (validMask df).any (fun b => b) = false
    · rw [if_pos h3] at h; cases h; exact Or.inr (Or.inr (Or.inl rfl))
    rw [if_neg h3] at h
    cases hb : boolFeatsOf df.cols (workRows df) with
      | error e2 =>
        rw [hb] at h
        cases h
        obtain ⟨col, hcol, hfa⟩ := mapExcept_error hb
        exact Or.inr (Or.inr (Or.inr ⟨col, hcol, boolFeatOf_error hfa⟩))
      | ok bf => rw [hb] at h; cases h
  · intro v hna hnl
    cases v with
    | plist l => exact absurd rfl (hnl l)
    | none => simp [pyIsNA] at hna
    | pbool b => simp [join_tags, pyIsNA]
    | pint n => simp [join_tags, pyIsNA]
    | pfloat x => simp [join_tags, hna]
    | pstr s => simp [join_tags, pyIsNA]
    | pdict => simp [join_tags, pyIsNA]

/-- Witness for C10: the error disjunction at a concrete failing frame and
scalar tag rendering at the concrete string "abc". -/
theorem c10_tags_total_witness :
    ((.err .emptyFrame : BuildError) = .err .emptyFrame ∨
     (.err .emptyFrame : BuildError) = .err .noSnapshotCol ∨
     (.err .emptyFrame : BuildError) = .err .noTargets ∨
     ∃ col ∈ BOOL_COLS, (.err .emptyFrame : BuildError) = .boolCast col) ∧
    join_tags (.pstr "abc") = pyStr (.pstr "abc") :=
  ⟨(c10_tags_total ⟨[], []⟩).1 (.err .emptyFrame) (by decide),
   (c10_tags_total ⟨[], []⟩).2.1 (.pstr "abc") (by decide)
     (fun l h => PyVal.noConfusion h)⟩

/-- Claim C3: three-valued boolean coercion. True/1/1.0 and any string
trimming and lower-casing to "1" normalize to true; False/0/0.0 and "0"
likewise to false; missing stays unknown; any other value (e.g. "maybe", 2)
makes `_coerce_bool_column` fail with a `boolCoercion` error carrying the
column, the table and at most 5 offending raw values; and an unknown cell
becomes integer 0 in the Feature Builder's boolean-derived features. -/
theorem c3_bool_coercion :
    (coerceBoolValue (.pbool true) = some (.pbool true) ∧
     coerceBoolValue (.pint 1) = some (.pbool true) ∧
     coerceBoolValue (.pfloat (.fin 1)) = some (.pbool true) ∧
     ∀ s : String, pyLower (pyStrip s) = "1" → coerceBoolValue (.pstr s) = some (.pbool true)) ∧
    (coerceBoolValue (.pbool false) = some (.pbool false) ∧
     coerceBoolValue (.pint 0) = some (.pbool false) ∧
     coerceBoolValue (.pfloat (.fin 0)) = some (.pbool false) ∧
     ∀ s : String, pyLower (pyStrip s) = "0" → coerceBoolValue (.pstr s) = some (.pbool false)) ∧
    (coerceBoolValue .none = some .none ∧
     coerceBoolValue (.pfloat .nan) = some .none) ∧
    (coerceBoolValue (.pstr "maybe") = Option.none ∧
     coerceBoolValue (.pint 2) = Option.none) ∧
    (∀ (series : List PyVal) (col : String) (t : TableName),
      (∃ v ∈ series, coerceBoolValue v = Option.none) →
        coerce_bool_column series col t
          = .error (.boolCoercion col t
              ((series.filter (fun v => (coerceBoolValue v).isNone)).take 5)) ∧
        ((series.filter (fun v => (coerceBoolValue v).isNone)).take 5).length ≤ 5) ∧
    (∀ (series : List PyVal) (col : String) (t : TableName),
      (∀ v ∈ series, (coerceBoolValue v).isSome) →
        coerce_bool_column series col t
          = .ok (series.map (fun v => (coerceBoolValue v).getD .none))) ∧
    (∀ v, pyIsNA v = true → boolFeatureInt ((astypeBoolValue v).getD Option.none) = 0) := by
  refine ⟨⟨by decide, by decide, by decide, ?_⟩, ⟨by decide, by decide, by decide, ?_⟩,
    ⟨by decide, by decide⟩, ⟨by decide, by decide⟩, ?_, ?_, ?_⟩
  · intro s h; simp [coerceBoolValue, pyIsNA, h]
  · intro s h; simp [coerceBoolValue, pyIsNA, h]
  · intro series col t hex
    have hne : (series.filter (fun v => (coerceBoolValue v).isNone)).isEmpty = false := by
      obtain ⟨v, hv, hnone⟩ := hex
      rw [List.isEmpty_eq_false_iff_exists_mem]
      exact ⟨v, List.mem_filter.mpr ⟨hv, by simp [hnone]⟩⟩
    refine ⟨?_, List.length_take_le 5 _⟩
    unfold coerce_bool_column
    simp only [hne]
    rfl
  · intro series col t hall
    have hemp : (series.filter (fun v => (coerceBoolValue v).isNone)).isEmpty = true := by
      rw [List.isEmpty_iff, List.filter_eq_nil_iff]
      intro v hv
      have h2 := hall v hv
      intro hnone
      rw [Option.isNone_iff_eq_none] at hnone
      rw [hnone] at h2
      simp at h2
    unfold coerce_bool_column
    simp only [hemp]
    rfl
  · intro v hna
    have : astypeBoolValue v = some Option.none := by
      unfold astypeBoolValue
      rw [if_pos hna]
    rw [this]
    rfl

/-- Witness for C3: coercion behavior at concrete strings with whitespace,
a concrete invalid column, and a concrete all-valid column. -/
theorem c3_bool_coercion_witness :
    coerceBoolValue (.pstr " 1 ") = some (.pbool true) ∧
    (coerce_bool_column [.pstr "maybe", .pint 2] "user_active" .snapshots
       = .error (.boolCoercion "user_active" .snapshots [.pstr "maybe", .pint 2]) ∧
     ((([(PyVal.pstr "maybe"), .pint 2].filter
        (fun v => (coerceBoolValue v).isNone)).take 5).length ≤ 5)) ∧
    coerce_bool_column [.pbool true, .none] "env_ssh" .processes
      = .ok [.pbool true, .none] ∧
    boolFeatureInt ((astypeBoolValue .none).getD Option.none) = 0 := by
  refine ⟨c3_bool_coercion.1.2.2.2 " 1 " (by decide), ?_, ?_, c3_bool_coercion.2.2.2.2.2.2 .none (by decide)⟩
  · have h := c3_bool_coercion.2.2.2.2.1 [.pstr "maybe", .pint 2] "user_active" .snapshots
      ⟨.pstr "maybe", by decide, by decide⟩
    exact ⟨by rw [h.1]; decide, h.2⟩
  · have h := c3_bool_coercion.2.2.2.2.2.1 [.pbool true, .none] "env_ssh" .processes
      (by decide)
    rw [h]; decide

/-! ### Loader claims -/

-- All validation checks of `load_snapshots_as_frame` up to (not including)
-- the orphan-group check, in source order.
def checksBeforeDangling (store : Store) : Prop :=
  store.present = true ∧
  ensure_required_columns .snapshots store.snapshots.cols ["snapshot_id"] = .ok () ∧
  ensure_required_columns .processes store.processes.cols ["pid", "snapshot_id"] = .ok () ∧
  ensure_required_columns .app_groups store.app_groups.cols ["app_group_id", "snapshot_id"] = .ok () ∧
  ensure_no_nan .snapshots store.snapshots.rows snapCell ["snapshot_id"] = .ok () ∧
  ensure_no_nan .processes store.processes.rows procCell ["snapshot_id", "pid"] = .ok () ∧
  ensure_no_nan .app_groups store.app_groups.rows groupCell ["snapshot_id", "app_group_id"] = .ok () ∧
  ensure_no_infinite .snapshots store.snapshots.cols store.snapshots.rows snapCell SNAPSHOT_NUMERIC_COLS = .ok () ∧
  ensure_no_infinite .processes store.processes.cols store.processes.rows procCell PROCESS_NUMERIC_COLS = .ok () ∧
  ensure_no_infinite .app_groups store.app_groups.cols store.app_groups.rows groupCell APP_GROUP_NUMERIC_COLS = .ok () ∧
  fkSnapshotCheck .processes (store.processes.rows.map (·.snapshot_id))
    (uniqueVals (store.snapshots.rows.map (·.snapshot_id))) = .ok () ∧
  ensure_unique_keys .processes store.processes.rows (fun p => (p.snapshot_id, p.pid)) = .ok () ∧
  ensure_unique_keys .app_groups store.app_groups.rows (fun g => (g.snapshot_id, g.app_group_id)) = .ok () ∧
  fkSnapshotCheck .app_groups (store.app_groups.rows.map (·.snapshot_id))
    (uniqueVals (store.snapshots.rows.map (·.snapshot_id))) = .ok ()

-- All validation checks, the orphan-group check included.
def checksPass (store : Store) : Prop :=
  checksBeforeDangling store ∧ danglingCheck store = .ok ()

instance (store : Store) : Decidable (checksBeforeDangling store) := by
  unfold checksBeforeDangling
  infer_instance

instance (store : Store) : Decidable (checksPass store) := by
  unfold checksPass
  infer_instance

/-- Claim C8: a store passing every validation check whose
ProcessObservation table is empty makes the Loader return the empty
flattened table rather than raising, and `build_feature_matrix` applied to
an empty flattened table raises the empty-input error. -/
theorem c8_empty_processes (store : Store) (h : checksPass store)
    (hemp : store.processes.rows = []) :
    load_snapshots_as_frame store = .ok [] ∧
    (∀ cols, build_feature_matrix ⟨cols, []⟩ = .error (.err .emptyFrame)) := by
  obtain ⟨⟨hp, h1, h2, h3, h4, h5, h6, h7, h8, h9, h10, h11, h12, h13⟩, h14⟩ := h
  constructor
  · unfold load_snapshots_as_frame
    rw [hp]
    simp only [seqE, h1, h2, h3, h4, h5, h6, h7, h8, h9, h10, h11, h12, h13, h14]
    rw [hemp]
    rfl
  · intro cols
    rfl

def storeEmptyW : Store :=
  ⟨"db", true,
   ⟨["snapshot_id"], [⟨.pint 1, []⟩]⟩,
   ⟨["snapshot_id", "pid"], []⟩,
   ⟨["snapshot_id", "app_group_id"], []⟩⟩

/-- Witness for C8: the empty-ProcessObservation behavior on a concrete
valid store. -/
theorem c8_empty_processes_witness :
    load_snapshots_as_frame storeEmptyW = .ok [] ∧
    (∀ cols, build_feature_matrix ⟨cols, []⟩ = .error (.err .emptyFrame)) :=
  c8_empty_processes storeEmptyW (by decide) (by decide)

theorem mem_dedupKeep {α : Type} [DecidableEq α] (l : List α) (x : α) :
    x ∈ dedupKeep l ↔ x ∈ l := by
  have aux : ∀ (l : List α) (acc : List α),
      x ∈ l.foldl (fun acc x => if x ∈ acc then acc else acc ++ [x]) acc ↔
        x ∈ acc ∨ x ∈ l := by
    intro l
    induction l with
    | nil => intro acc; simp
    | cons y ys ih =>
      intro acc
      by_cases hy : y ∈ acc
      · simp only [List.foldl_cons, if_pos hy, ih]
        constructor
        · rintro (h | h)
          · exact Or.inl h
          · exact Or.inr (List.mem_cons_of_mem _ h)
        · rintro (h | h)
          · exact Or.inl h
          · rcases List.mem_cons.mp h with rfl | h2
            · exact Or.inl hy
            · exact Or.inr h2
      · simp only [List.foldl_cons, if_neg hy, ih]
        constructor
        · rintro (h | h)
          · rcases List.mem_append.mp h with h2 | h2
            · exact Or.inl h2
            · simp at h2; subst h2; exact Or.inr (List.mem_cons_self _ _)
          · exact Or.inr (List.mem_cons_of_mem _ h)
        · rintro (h | h)
          · exact Or.inl (List.mem_append.mpr (Or.inl h))
          · rcases List.mem_cons.mp h with rfl | h2
            · exact Or.inl (List.mem_append.mpr (Or.inr (by simp)))
            · exact Or.inr h2
  unfold dedupKeep
  rw [aux]
  simp

theorem mem_sortPairs (l : List (PyVal × PyVal)) (x : PyVal × PyVal) :
    x ∈ sortPairs l ↔ x ∈ l :=
  (List.perm_insertionSort pairLe l).mem_iff

theorem sortPairs_ne_nil {l : List (PyVal × PyVal)} (h : l ≠ []) :
    sortPairs l ≠ [] := by
  intro hs
  have := (List.perm_insertionSort pairLe l).length_eq
  rw [sortPairs] at hs
  rw [hs] at this
  exact h (List.length_eq_zero.mp this.symm)

/-- Claim C5: a store passing all earlier checks in which some
ProcessObservation carries a non-null group key with no matching AppGroup
row in the same snapshot makes the Loader raise the orphan-group
IntegrityError listing up to 5 offending (snapshot id, group key) pairs,
and no flattened table is produced. -/
theorem c5_dangling_group (store : Store)
    (h : checksBeforeDangling store)
    (hcol : "app_group_id" ∈ store.processes.cols)
    (hd : danglingPairs store ≠ []) :
    load_snapshots_as_frame store
      = .error (.danglingGroup ((sortPairs (dedupKeep (danglingPairs store))).take 5)) ∧
    ((sortPairs (dedupKeep (danglingPairs store))).take 5) ≠ [] ∧
    ((sortPairs (dedupKeep (danglingPairs store))).take 5).length ≤ 5 ∧
    (∀ p ∈ (sortPairs (dedupKeep (danglingPairs store))).take 5,
      p ∈ processGroupPairs store ∧ p ∉ appGroupKeyPairs store) ∧
    kindOf (.danglingGroup ((sortPairs (dedupKeep (danglingPairs store))).take 5))
      = .integrityError := by
  obtain ⟨hp, h1, h2, h3, h4, h5, h6, h7, h8, h9, h10, h11, h12, h13⟩ := h
  have hbase : (processGroupPairs store).isEmpty = false := by
    rw [List.isEmpty_eq_false_iff_exists_mem]
    obtain ⟨q, hq⟩ := List.exists_mem_of_ne_nil _ hd
    exact ⟨q, (List.mem_filter.mp hq).1⟩
  have hmiss : (sortPairs (dedupKeep (danglingPairs store))).isEmpty = false := by
    rw [List.isEmpty_eq_false_iff_exists_mem]
    obtain ⟨q, hq⟩ := List.exists_mem_of_ne_nil _ hd
    exact ⟨q, (mem_sortPairs _ _).mpr ((mem_dedupKeep _ _).mpr hq)⟩
  have hcheck : danglingCheck store
      = .error (.danglingGroup ((sortPairs (dedupKeep (danglingPairs store))).take 5)) := by
    unfold danglingCheck
    rw [if_pos hcol]
    simp only [hbase, hmiss]
    rfl
  refine ⟨?_, ?_, List.length_take_le 5 _, ?_, rfl⟩
  · unfold load_snapshots_as_frame
    rw [hp]
    simp only [seqE, h1, h2, h3, h4, h5, h6, h7, h8, h9, h10, h11, h12, h13, hcheck]
    simp
  · intro ht
    have h0 : sortPairs (dedupKeep (danglingPairs store)) ≠ [] :=
      sortPairs_ne_nil (fun hn => by
        obtain ⟨q, hq⟩ := List.exists_mem_of_ne_nil _ hd
        exact absurd ((mem_dedupKeep _ _).mpr hq) (by rw [hn]; simp))
    rcases List.take_eq_nil_iff.mp ht with h5' | h5'
    · exact absurd h5' (by decide)
    · exact h0 h5'
  · intro p hp5
    have hmem : p ∈ danglingPairs store :=
      (mem_dedupKeep _ _).mp ((mem_sortPairs _ _).mp (List.mem_of_mem_take hp5))
    have := List.mem_filter.mp hmem
    refine ⟨this.1, ?_⟩
    have h2 := this.2
    simpa using h2

def storeDangW : Store :=
  ⟨"db", true,
   ⟨["snapshot_id"], [⟨.pint 1, []⟩]⟩,
   ⟨["snapshot_id", "pid", "app_group_id"], [⟨.pint 1, .pint 100, .pstr "gX", .none, []⟩]⟩,
   ⟨["snapshot_id", "app_group_id"], []⟩⟩

/-- Witness for C5: the orphan-group failure on a concrete store whose one
process references a group key with no AppGroup row. -/
theorem c5_dangling_group_witness :
    load_snapshots_as_frame storeDangW
      = .error (.danglingGroup ((sortPairs (dedupKeep (danglingPairs storeDangW))).take 5)) ∧
    ((sortPairs (dedupKeep (danglingPairs storeDangW))).take 5) ≠ [] ∧
    ((sortPairs (dedupKeep (danglingPairs storeDangW))).take 5).length ≤ 5 ∧
    (∀ p ∈ (sortPairs (dedupKeep (danglingPairs storeDangW))).take 5,
      p ∈ processGroupPairs storeDangW ∧ p ∉ appGroupKeyPairs storeDangW) ∧
    kindOf (.danglingGroup ((sortPairs (dedupKeep (danglingPairs storeDangW))).take 5))
      = .integrityError :=
  c5_dangling_group storeDangW (by decide) (by decide) (by decide)

/-! ### Inversion of a successful load -/

theorem seqE_ok_elim {ε α : Type} {c : Except ε Unit} {k : Except ε α} {x : α}
    (h : seqE c k = .ok x) : c = .ok () ∧ k = .ok x := by
  cases c with
  | ok u => cases u; exact ⟨rfl, h⟩
  | error e => simp [seqE] at h

theorem load_ok_elim {store : Store} {flat : List FlatRow}
    (h : load_snapshots_as_frame store = .ok flat) :
    checksPass store ∧
    ((store.processes.rows.isEmpty = true ∧ flat = []) ∨
     ∃ ns np ng, normalizeSnapshots store.snapshots = .ok ns ∧
       normalizeProcesses store.processes = .ok np ∧
       normalizeAppGroups store.app_groups = .ok ng ∧
       flat = sortFlat (mergeGroups (mergeSnapshots np ns) ng)) := by
  unfold load_snapshots_as_frame at h
  by_cases hpres : store.present = false
  · rw [if_pos hpres] at h; cases h
  rw [if_neg hpres] at h
  obtain ⟨hc1, h⟩ := seqE_ok_elim h
  obtain ⟨hc2, h⟩ := seqE_ok_elim h
  obtain ⟨hc3, h⟩ := seqE_ok_elim h
  obtain ⟨hc4, h⟩ := seqE_ok_elim h
  obtain ⟨hc5, h⟩ := seqE_ok_elim h
  obtain ⟨hc6, h⟩ := seqE_ok_elim h
  obtain ⟨hc7, h⟩ := seqE_ok_elim h
  obtain ⟨hc8, h⟩ := seqE_ok_elim h
  obtain ⟨hc9, h⟩ := seqE_ok_elim h
  obtain ⟨hc10, h⟩ := seqE_ok_elim h
  obtain ⟨hc11, h⟩ := seqE_ok_elim h
  obtain ⟨hc12, h⟩ := seqE_ok_elim h
  obtain ⟨hc13, h⟩ := seqE_ok_elim h
  obtain ⟨hc14, h⟩ := seqE_ok_elim h
  refine ⟨⟨⟨Bool.not_eq_false _ |>.mp hpres, hc1, hc2, hc3, hc4, hc5, hc6, hc7, hc8,
    hc9, hc10, hc11, hc12, hc13⟩, hc14⟩, ?_⟩
  by_cases hemp : store.processes.rows.isEmpty = true
  · rw [if_pos hemp] at h
    cases h
    exact Or.inl ⟨hemp, rfl⟩
  rw [if_neg hemp] at h
  cases hns : normalizeSnapshots store.snapshots with
  | error e => rw [hns] at h; cases h
  | ok ns =>
    rw [hns] at h
    cases hnp : normalizeProcesses store.processes with
    | error e => rw [hnp] at h; cases h
    | ok np =>
      rw [hnp] at h
      cases hng : normalizeAppGroups store.app_groups with
      | error e => rw [hng] at h; cases h
      | ok ng =>
        rw [hng] at h
        cases h
        exact Or.inr ⟨ns, np, ng, rfl, rfl, rfl, rfl⟩

/-! ### Normalization preserves key columns -/

theorem coerce_bool_column_ok_length {series : List PyVal} {column : String}
    {table : TableName} {vals : List PyVal}
    (h : coerce_bool_column series column table = .ok vals) :
    vals.length = series.length := by
  unfold coerce_bool_column at h
  split at h
  · cases h; simp
  · cases h

theorem map_zipWith_left {ρ σ β : Type} (f : ρ → σ) (g : ρ → β → ρ)
    (hg : ∀ r v, f (g r v) = f r) :
    ∀ (rows : List ρ) (vals : List β), vals.length = rows.length →
      (List.zipWith g rows vals).map f = rows.map f := by
  intro rows
  induction rows with
  | nil => intro vals _; simp
  | cons r rs ih =>
    intro vals hlen
    cases vals with
    | nil => simp at hlen
    | cons v vs =>
      simp only [List.zipWith_cons_cons, List.map_cons, hg]
      rw [ih vs (by simpa using hlen)]

theorem to_bool_preserve {ρ σ : Type} (f : ρ → σ)
    (tableCols : List String) (cell : ρ → String → PyVal) (setC : ρ → String → PyVal → ρ)
    (t : TableName) (hf : ∀ r c v, f (setC r c v) = f r) :
    ∀ (cols : List String) (rows : List ρ) {rs : List ρ},
      to_bool tableCols rows cell setC cols t = .ok rs → rs.map f = rows.map f := by
  intro cols
  induction cols with
  | nil => intro rows rs h; cases h; rfl
  | cons col rest ih =>
    intro rows rs h
    unfold to_bool at h
    by_cases hmem : col ∈ tableCols
    · rw [if_pos hmem] at h
      cases hco : coerce_bool_column (rows.map (fun r => cell r col)) col t with
      | error e => rw [hco] at h; cases h
      | ok vals =>
        rw [hco] at h
        have hlen : vals.length = rows.length := by
          simpa using coerce_bool_column_ok_length hco
        rw [ih _ h, map_zipWith_left f _ (fun r v => hf r col v) rows vals hlen]
    · rw [if_neg hmem] at h
      exact ih _ h

theorem mapExcept_preserve {ρ σ : Type} (f : ρ → σ) (g : ρ → Except TrainError ρ)
    (hg : ∀ r r2, g r = .ok r2 → f r2 = f r) :
    ∀ {rows rs : List ρ}, mapExcept g rows = .ok rs → rs.map f = rows.map f := by
  intro rows
  induction rows with
  | nil => intro rs h; cases h; rfl
  | cons r rest ih =>
    intro rs h
    unfold mapExcept at h
    cases hr : g r with
    | error e => rw [hr] at h; cases h
    | ok r2 =>
      rw [hr] at h
      cases hrest : mapExcept g rest with
      | error e => rw [hrest] at h; cases h
      | ok rs2 =>
        rw [hrest] at h
        cases h
        simp [hg r r2 hr, ih hrest]

-- key-projection of a process row (the merge keys plus the group key).
def procKeys (p : ProcessRow) : PyVal × PyVal × PyVal :=
  (p.snapshot_id, p.pid, p.app_group_id)

def groupKeys (g : AppGroupRow) : PyVal × PyVal := (g.snapshot_id, g.app_group_id)

theorem normalizeSnapshots_ids {t : Table SnapshotRow} {ns : List SnapshotRow}
    (h : normalizeSnapshots t = .ok ns) :
    ns.map (fun s => s.snapshot_id) = t.rows.map (fun s => s.snapshot_id) := by
  have hf : ∀ (r : SnapshotRow) (c : String) (v : PyVal),
      (fun s : SnapshotRow => s.snapshot_id) (snapSetCell r c v)
        = (fun s : SnapshotRow => s.snapshot_id) r := fun _ _ _ => rfl
  exact to_bool_preserve (fun s => s.snapshot_id) t.cols snapCell snapSetCell .snapshots
    hf SNAPSHOT_BOOL_COLS t.rows h

theorem normTagsRow_keys {r r2 : ProcessRow} (hr : normTagsRow r = .ok r2) :
    procKeys r2 = procKeys r := by
  unfold normTagsRow at hr
  cases hn : normalize_tags_list r.tags "tags" with
  | error e => rw [hn] at hr; cases hr
  | ok tags => rw [hn] at hr; cases hr; rfl

theorem normalizeProcesses_keys {t : Table ProcessRow} {np : List ProcessRow}
    (h : normalizeProcesses t = .ok np) :
    np.map procKeys = t.rows.map procKeys := by
  unfold normalizeProcesses at h
  split at h
  · cases h
  · rename_i rs hb
    have hstep1 : rs.map procKeys = t.rows.map procKeys := by
      have hf : ∀ (r : ProcessRow) (c : String) (v : PyVal),
          procKeys (procSetCell r c v) = procKeys r := fun _ _ _ => rfl
      exact to_bool_preserve procKeys t.cols procCell procSetCell .processes
        hf PROCESS_BOOL_COLS t.rows hb
    split at h
    · have hstep2 : np.map procKeys = rs.map procKeys :=
        mapExcept_preserve procKeys normTagsRow (fun _ _ hr => normTagsRow_keys hr) h
      rw [hstep2, hstep1]
    · cases h; exact hstep1

theorem normTagsGroupRow_keys {r r2 : AppGroupRow} (hr : normTagsGroupRow r = .ok r2) :
    groupKeys r2 = groupKeys r := by
  unfold normTagsGroupRow at hr
  cases hn : normalize_tags_list r.tags "tags" with
  | error e => rw [hn] at hr; cases hr
  | ok tags => rw [hn] at hr; cases hr; rfl

theorem normPidsGroupRow_keys {r r2 : AppGroupRow} (hr : normPidsGroupRow r = .ok r2) :
    groupKeys r2 = groupKeys r := by
  unfold normPidsGroupRow at hr
  cases hn : parse_process_ids r.process_ids with
  | error e => rw [hn] at hr; cases hr
  | ok ids => rw [hn] at hr; cases hr; rfl

theorem normalizeAppGroups_keys {t : Table AppGroupRow} {ng : List AppGroupRow}
    (h : normalizeAppGroups t = .ok ng) :
    ng.map groupKeys = t.rows.map groupKeys := by
  unfold normalizeAppGroups at h
  split at h
  · cases h
  · rename_i rs hb
    have hstep1 : rs.map groupKeys = t.rows.map groupKeys := by
      have hf : ∀ (r : AppGroupRow) (c : String) (v : PyVal),
          groupKeys (groupSetCell r c v) = groupKeys r := fun _ _ _ => rfl
      exact to_bool_preserve groupKeys t.cols groupCell groupSetCell .app_groups
        hf APP_GROUP_BOOL_COLS t.rows hb
    split at h
    · cases h
    · rename_i rs2 h2
      have hstep2 : rs2.map groupKeys = rs.map groupKeys := by
        split at h2
        · exact mapExcept_preserve groupKeys normTagsGroupRow
            (fun _ _ hr => normTagsGroupRow_keys hr) h2
        · cases h2; rfl
      have hstep3 : ng.map groupKeys = rs2.map groupKeys := by
        split at h
        · exact mapExcept_preserve groupKeys normPidsGroupRow
            (fun _ _ hr => normPidsGroupRow_keys hr) h
        · cases h; rfl
      rw [hstep3, hstep2, hstep1]

/-! ### Facts extracted from passed checks -/

theorem filterMap_enumFrom_nil {ρ : Type} (p : ρ → Bool) :
    ∀ (rows : List ρ) (n : Nat),
      ((List.enumFrom n rows).filterMap
          (fun q => if p q.2 then some q.1 else Option.none) = [])
        ↔ ∀ r ∈ rows, p r = false := by
  intro rows
  induction rows with
  | nil => intro n; simp
  | cons x xs ih =>
    intro n
    by_cases hx : p x
    · simp [List.enumFrom, List.filterMap_cons, hx]
    · simp [List.enumFrom, List.filterMap_cons, hx, ih (n + 1)]

theorem nanColCheck_ok {ρ : Type} {t : TableName} {rows : List ρ}
    {cell : ρ → String → PyVal} {col : String}
    (h : nanColCheck t rows cell col = .ok ()) :
    ∀ r ∈ rows, pyIsNA (cell r col) = false := by
  unfold nanColCheck at h
  split at h
  · rename_i hemp
    rw [List.isEmpty_iff] at hemp
    exact (filterMap_enumFrom_nil (fun r => pyIsNA (cell r col)) rows 0).mp hemp
  · cases h

theorem firstError_ok {α ε : Type} {f : α → Except ε Unit} :
    ∀ {l : List α}, firstError f l = .ok () → ∀ x ∈ l, f x = .ok () := by
  intro l
  induction l with
  | nil => intro _ x hx; cases hx
  | cons a as ih =>
    intro h x hx
    unfold firstError at h
    cases hfa : f a with
    | error e => rw [hfa] at h; cases h
    | ok u =>
      cases u
      rw [hfa] at h
      rcases List.mem_cons.mp hx with rfl | hx2
      · exact hfa
      · exact ih h x hx2

theorem ensure_no_nan_ok {ρ : Type} {t : TableName} {rows : List ρ}
    {cell : ρ → String → PyVal} {columns : List String}
    (h : ensure_no_nan t rows cell columns = .ok ()) :
    ∀ col ∈ columns, ∀ r ∈ rows, pyIsNA (cell r col) = false := by
  intro col hcol
  exact nanColCheck_ok (firstError_ok h col hcol)

theorem sortPv_nil_iff (l : List PyVal) : sortPv l = [] ↔ l = [] := by
  constructor
  · intro h
    have := (List.perm_insertionSort pvLe l).length_eq
    rw [sortPv] at h
    rw [h] at this
    exact List.length_eq_zero.mp this.symm
  · intro h; rw [h]; rfl

theorem sortPairs_nil_iff (l : List (PyVal × PyVal)) : sortPairs l = [] ↔ l = [] := by
  constructor
  · intro h
    have := (List.perm_insertionSort pairLe l).length_eq
    rw [sortPairs] at h
    rw [h] at this
    exact List.length_eq_zero.mp this.symm
  · intro h; rw [h]; rfl

theorem dedupKeep_nil {α : Type} [DecidableEq α] {l : List α}
    (h : dedupKeep l = []) : l = [] := by
  cases l with
  | nil => rfl
  | cons x xs =>
    exfalso
    have hx : x ∈ dedupKeep (x :: xs) := (mem_dedupKeep _ _).mpr (List.mem_cons_self _ _)
    rw [h] at hx
    cases hx

theorem fkSnapshotCheck_ok {src : TableName} {ids snapIds : List PyVal}
    (h : fkSnapshotCheck src ids snapIds = .ok ()) :
    ∀ v ∈ ids, pyIsNA v = false → v ∈ snapIds := by
  intro v hv hna
  unfold fkSnapshotCheck at h
  split at h
  · rename_i hemp
    rw [List.isEmpty_iff] at hemp
    unfold missingRefs at hemp
    rw [sortPv_nil_iff, List.filter_eq_nil_iff] at hemp
    have hvin : v ∈ uniqueVals ids :=
      (mem_dedupKeep _ _).mpr (List.mem_filter.mpr ⟨hv, by simp [hna]⟩)
    have := hemp v hvin
    simpa using this
  · cases h

theorem nodup_of_count_le_one {α : Type} [BEq α] [LawfulBEq α] :
    ∀ {l : List α}, (∀ a ∈ l, l.count a ≤ 1) → l.Nodup := by
  intro l
  induction l with
  | nil => intro _; exact List.nodup_nil
  | cons x xs ih =>
    intro h
    have hx : List.count x (x :: xs) ≤ 1 := h x (List.mem_cons_self _ _)
    rw [List.count_cons_self] at hx
    have hx0 : List.count x xs = 0 := by omega
    refine List.nodup_cons.mpr ⟨List.count_eq_zero.mp hx0, ih ?_⟩
    intro a ha
    have h1 := h a (List.mem_cons_of_mem _ ha)
    have h2 : List.count a xs ≤ List.count a (x :: xs) := by
      rw [List.count_cons]
      omega
    omega

theorem ensure_unique_keys_ok {ρ : Type} {t : TableName} {rows : List ρ}
    {keyOf : ρ → PyVal × PyVal}
    (h : ensure_unique_keys t rows keyOf = .ok ()) :
    (rows.map keyOf).Nodup := by
  unfold ensure_unique_keys at h
  split at h
  · rename_i hemp
    rw [List.isEmpty_iff] at hemp
    unfold dupKeys at hemp
    have hfil : (rows.map keyOf).filter
        (fun k => 2 ≤ (rows.map keyOf).count k) = [] := by
      by_contra hne
      obtain ⟨x, hx⟩ := List.exists_mem_of_ne_nil _ hne
      exact absurd ((mem_dedupKeep _ _).mpr hx) (by rw [hemp]; simp)
    apply nodup_of_count_le_one
    intro a ha
    have hn2 := List.filter_eq_nil_iff.mp hfil a ha
    simp at hn2
    omega
  · cases h

theorem danglingCheck_ok {store : Store} (h : danglingCheck store = .ok ())
    (hcol : "app_group_id" ∈ store.processes.cols) :
    ∀ k ∈ processGroupPairs store, k ∈ appGroupKeyPairs store := by
  intro k hk
  unfold danglingCheck at h
  rw [if_pos hcol] at h
  split at h
  · rename_i hemp
    rw [List.isEmpty_iff] at hemp
    rw [hemp] at hk
    cases hk
  · split at h
    · rename_i hmiss
      rw [List.isEmpty_iff, sortPairs_nil_iff] at hmiss
      have hdp : danglingPairs store = [] := dedupKeep_nil hmiss
      unfold danglingPairs at hdp
      rw [List.filter_eq_nil_iff] at hdp
      have := hdp k hk
      simpa using this
    · cases h

/-! ### Structure of the left joins -/

theorem flatMap_singleton_forall₂ {α β : Type} {l : List α} {F : α → List β}
    {R : α → β → Prop} (h : ∀ a ∈ l, ∃ b, F a = [b] ∧ R a b) :
    List.Forall₂ R l (l.flatMap F) := by
  induction l with
  | nil => exact .nil
  | cons x xs ih =>
    obtain ⟨b, hb, hR⟩ := h x (List.mem_cons_self _ _)
    have : (x :: xs).flatMap F = b :: xs.flatMap F := by
      rw [List.flatMap_cons, hb]
      rfl
    rw [this]
    exact .cons hR (ih (fun a ha => h a (List.mem_cons_of_mem _ ha)))

theorem filter_key_singleton {α κ : Type} [BEq κ] [LawfulBEq κ] (f : α → κ) :
    ∀ (l : List α), (l.map f).Nodup → ∀ (a : κ), (∃ x ∈ l, f x = a) →
      ∃ x, l.filter (fun y => f y == a) = [x] ∧ f x = a ∧ x ∈ l := by
  intro l
  induction l with
  | nil => intro _ a hex; obtain ⟨x, hx, _⟩ := hex; cases hx
  | cons y ys ih =>
    intro hn a hex
    rw [List.map_cons] at hn
    have hn2 := List.nodup_cons.mp hn
    by_cases hy : f y = a
    · refine ⟨y, ?_, hy, List.mem_cons_self _ _⟩
      have htail : ys.filter (fun z => f z == a) = [] := by
        rw [List.filter_eq_nil_iff]
        intro z hz
        simp only [beq_iff_eq]
        intro hfz
        exact hn2.1 (by rw [hy, ← hfz]; exact List.mem_map_of_mem f hz)
      rw [List.filter_cons, if_pos (by simp [hy]), htail]
    · obtain ⟨x, hx, hfx⟩ := hex
      rcases List.mem_cons.mp hx with rfl | hx2
      · exact absurd hfx hy
      · obtain ⟨x2, hfil, hfx2, hmem⟩ := ih hn2.2 a ⟨x, hx2, hfx⟩
        refine ⟨x2, ?_, hfx2, List.mem_cons_of_mem _ hmem⟩
        rw [List.filter_cons, if_neg (by simp [hy]), hfil]

theorem forall₂_comp {α β γ : Type} {R : α → β → Prop} {S : β → γ → Prop}
    {T : α → γ → Prop} (h : ∀ a b c, R a b → S b c → T a c) :
    ∀ {l : List α} {m : List β} {n : List γ},
      List.Forall₂ R l m → List.Forall₂ S m n → List.Forall₂ T l n := by
  intro l m n h1
  induction h1 generalizing n with
  | nil => intro h2; cases h2; exact .nil
  | cons hr _ ih =>
    intro h2
    cases h2 with
    | cons hs h2t => exact .cons (h _ _ _ hr hs) (ih h2t)

theorem mergeSnapshots_forall₂ {procs : List ProcessRow} {snaps : List SnapshotRow}
    (hn : (snaps.map (fun s => s.snapshot_id)).Nodup)
    (hfk : ∀ p ∈ procs, ∃ s ∈ snaps, s.snapshot_id = p.snapshot_id) :
    List.Forall₂ (fun p (pr : ProcessRow × Option SnapshotRow) =>
        pr.1 = p ∧ ∃ s, pr.2 = some s ∧ s.snapshot_id = p.snapshot_id)
      procs (mergeSnapshots procs snaps) := by
  unfold mergeSnapshots
  apply flatMap_singleton_forall₂
  intro p hp
  obtain ⟨s, hfil, hfs, hsmem⟩ :=
    filter_key_singleton (fun s : SnapshotRow => s.snapshot_id) snaps hn
      p.snapshot_id (hfk p hp)
  refine ⟨(p, some s), ?_, rfl, s, rfl, hfs⟩
  rw [hfil]
  rfl

theorem mergeGroups_forall₂ {rows : List (ProcessRow × Option SnapshotRow)}
    {groups : List AppGroupRow}
    (hgna : ∀ g ∈ groups, pyIsNA g.app_group_id = false)
    (hgu : (groups.map groupKeys).Nodup)
    (hmatch : ∀ r ∈ rows, pyIsNA (r : ProcessRow × Option SnapshotRow).1.app_group_id = false →
      ∃ g ∈ groups, groupKeys g = (r.1.snapshot_id, r.1.app_group_id)) :
    List.Forall₂ (fun (r : ProcessRow × Option SnapshotRow) (fr : FlatRow) =>
        fr.proc = r.1 ∧ fr.snap = r.2 ∧
        (pyIsNA r.1.app_group_id = true → fr.group = Option.none) ∧
        (pyIsNA r.1.app_group_id = false → ∃ g, fr.group = some g ∧
          g.snapshot_id = r.1.snapshot_id ∧ g.app_group_id = r.1.app_group_id))
      rows (mergeGroups rows groups) := by
  unfold mergeGroups
  by_cases hge : groups.isEmpty
  · rw [if_pos hge]
    have : ∀ r ∈ rows, pyIsNA (r : ProcessRow × Option SnapshotRow).1.app_group_id = true := by
      intro r hr
      by_contra hna
      obtain ⟨g, hg, -⟩ := hmatch r hr (by simpa using hna)
      rw [List.isEmpty_iff] at hge
      rw [hge] at hg
      cases hg
    rw [List.forall₂_map_right_iff]
    rw [List.forall₂_same]
    intro r hr
    exact ⟨rfl, rfl, fun _ => rfl, fun hna => absurd (this r hr) (by simp [hna])⟩
  · rw [if_neg hge]
    apply flatMap_singleton_forall₂
    intro r hr
    by_cases hna : pyIsNA r.1.app_group_id = true
    · refine ⟨⟨r.1, r.2, Option.none⟩, ?_, rfl, rfl, fun _ => rfl,
        fun hcontra => absurd hna (by simp [hcontra])⟩
      have hfil : groups.filter (fun g =>
          g.snapshot_id == r.1.snapshot_id && g.app_group_id == r.1.app_group_id) = [] := by
        rw [List.filter_eq_nil_iff]
        intro g hg
        simp only [Bool.and_eq_true, beq_iff_eq, not_and]
        intro _ hgid
        have := hgna g hg
        rw [hgid, hna] at this
        cases this
      rw [hfil]
      rfl
    · have hna2 : pyIsNA r.1.app_group_id = false := by simpa using hna
      obtain ⟨g0, hg0, hkeys⟩ := hmatch r hr hna2
      have hcong : groups.filter (fun g =>
            g.snapshot_id == r.1.snapshot_id && g.app_group_id == r.1.app_group_id)
          = groups.filter (fun g => groupKeys g == (r.1.snapshot_id, r.1.app_group_id)) := by
        apply List.filter_congr
        intro g _
        show (g.snapshot_id == r.1.snapshot_id && g.app_group_id == r.1.app_group_id)
          = (groupKeys g == (r.1.snapshot_id, r.1.app_group_id))
        rw [Bool.eq_iff_iff]
        simp [groupKeys, Prod.ext_iff]
      obtain ⟨g, hfil, hkg, hgmem⟩ :=
        filter_key_singleton groupKeys groups hgu (r.1.snapshot_id, r.1.app_group_id)
          ⟨g0, hg0, hkeys⟩
      refine ⟨⟨r.1, r.2, some g⟩, ?_, rfl, rfl,
        fun hcontra => absurd hcontra (by simp [hna2]),
        fun _ => ⟨g, rfl, ?_, ?_⟩⟩
      · rw [hcong, hfil]
        rfl
      · exact congrArg Prod.fst hkg
      · exact congrArg Prod.snd hkg

/-! ### Claim C2 -/

def storeDupSnap : Store :=
  ⟨"db", true,
   ⟨["snapshot_id"], [⟨.pint 1, []⟩, ⟨.pint 1, []⟩]⟩,
   ⟨["snapshot_id", "pid"], [⟨.pint 1, .pint 100, .none, .none, []⟩]⟩,
   ⟨["snapshot_id", "app_group_id"], []⟩⟩

def flatDup : List FlatRow :=
  match load_snapshots_as_frame storeDupSnap with
  | .ok l => l
  | .error _ => []

/-- Counterexample to C2 as stated: a store whose snapshots table repeats
one snapshot id passes every validation check (none of them examines
snapshot-id uniqueness), yet the left join fans its single
ProcessObservation out to two flattened rows — not "exactly one row per
ProcessObservation". -/
theorem c2_counterexample :
    load_snapshots_as_frame storeDupSnap = .ok flatDup ∧
    storeDupSnap.processes.rows.length = 1 ∧ flatDup.length = 2 := by
  refine ⟨by decide, rfl, by decide⟩

theorem map_eq_mem_transfer {α β : Type} {f : α → β} {l1 l2 : List α}
    (h : l1.map f = l2.map f) : ∀ a ∈ l1, ∃ b ∈ l2, f b = f a := by
  intro a ha
  have : f a ∈ l2.map f := by rw [← h]; exact List.mem_map_of_mem f ha
  obtain ⟨b, hb, hfb⟩ := List.mem_map.mp this
  exact ⟨b, hb, hfb⟩

theorem forall₂_map_eq {α β γ : Type} {R : α → β → Prop} (g : β → γ) (f : α → γ)
    (hRT : ∀ a b, R a b → g b = f a) :
    ∀ {l : List α} {m : List β}, List.Forall₂ R l m → m.map g = l.map f := by
  intro l m h
  induction h with
  | nil => rfl
  | cons hr _ ih => simp [ih, hRT _ _ hr]

/-- Claim C2 (amended): for every store accepted by the Loader whose
snapshot ids are additionally unique — the data-model invariant the
validation checks do not themselves enforce — the flattened table has
exactly one row per ProcessObservation (equal row count and the same
multiset of (snapshot id, process id) keys), every row carries its parent
Snapshot row, a row whose process names a group key carries the matching
AppGroup row while a row with a null group key carries none, and the result
is sorted ascending by (snapshot id, process id). -/
theorem c2_flatten_amended (store : Store) (flat : List FlatRow)
    (hload : load_snapshots_as_frame store = .ok flat)
    (hnodup : (store.snapshots.rows.map (fun s => s.snapshot_id)).Nodup)
    (hwf : "app_group_id" ∈ store.processes.cols ∨
      ∀ p ∈ store.processes.rows, pyIsNA p.app_group_id = true) :
    flat.length = store.processes.rows.length ∧
    (flat.map (fun r => (r.proc.snapshot_id, r.proc.pid))).Perm
      (store.processes.rows.map (fun p => (p.snapshot_id, p.pid))) ∧
    (∀ r ∈ flat, ∃ s, r.snap = some s ∧ s.snapshot_id = r.proc.snapshot_id) ∧
    (∀ r ∈ flat, pyIsNA r.proc.app_group_id = true → r.group = Option.none) ∧
    (∀ r ∈ flat, pyIsNA r.proc.app_group_id = false →
      ∃ g, r.group = some g ∧ g.snapshot_id = r.proc.snapshot_id ∧
        g.app_group_id = r.proc.app_group_id) ∧
    List.Sorted flatLe flat := by
  obtain ⟨⟨⟨hp, hr1, hr2, hr3, hn1, hn2, hn3, hi1, hi2, hi3, hfk1, hu1, hu2, hfk2⟩, hdang⟩,
    hres⟩ := load_ok_elim hload
  rcases hres with ⟨hemp, rfl⟩ | ⟨ns, np, ng, hns, hnp, hng, rfl⟩
  · have hrows : store.processes.rows = [] := List.isEmpty_iff.mp hemp
    exact ⟨by simp [hrows], by rw [hrows]; simp, by simp, by simp, by simp, List.sorted_nil⟩
  -- facts about the raw store
  · have hnaPsid : ∀ p ∈ store.processes.rows, pyIsNA p.snapshot_id = false := by
      intro p hp2
      have h2 := ensure_no_nan_ok hn2 "snapshot_id" (by simp) p hp2
      simpa [procCell] using h2
    have hnaGagi : ∀ g ∈ store.app_groups.rows, pyIsNA g.app_group_id = false := by
      intro g hg
      have h2 := ensure_no_nan_ok hn3 "app_group_id" (by simp) g hg
      simpa [groupCell] using h2
    -- key preservation through normalization
    have hkeysNP := normalizeProcesses_keys hnp
    have hidsNS := normalizeSnapshots_ids hns
    have hkeysNG := normalizeAppGroups_keys hng
    have htransP : ∀ p ∈ np, ∃ p0 ∈ store.processes.rows, procKeys p0 = procKeys p :=
      map_eq_mem_transfer hkeysNP
    have htransG : ∀ g ∈ ng, ∃ g0 ∈ store.app_groups.rows, groupKeys g0 = groupKeys g :=
      map_eq_mem_transfer hkeysNG
    -- facts about the normalized tables
    have hnodupNS : (ns.map (fun s => s.snapshot_id)).Nodup := by
      rw [hidsNS]; exact hnodup
    have hfkNP : ∀ p ∈ np, ∃ s ∈ ns, s.snapshot_id = p.snapshot_id := by
      intro p hpnp
      obtain ⟨p0, hp0, hk⟩ := htransP p hpnp
      have hsid : p0.snapshot_id = p.snapshot_id := congrArg (fun k => k.1) hk
      have hin : p0.snapshot_id ∈ uniqueVals (store.snapshots.rows.map (fun s => s.snapshot_id)) :=
        fkSnapshotCheck_ok hfk1 p0.snapshot_id (List.mem_map_of_mem _ hp0) (hnaPsid p0 hp0)
      have hin2 : p0.snapshot_id ∈ store.snapshots.rows.map (fun s => s.snapshot_id) :=
        (List.mem_filter.mp ((mem_dedupKeep _ _).mp hin)).1
      obtain ⟨s0, hs0, hsid0⟩ := List.mem_map.mp hin2
      have : (fun s : SnapshotRow => s.snapshot_id) s0 ∈ ns.map (fun s => s.snapshot_id) := by
        rw [hidsNS]; exact List.mem_map_of_mem _ hs0
      obtain ⟨s, hs, hseq⟩ := List.mem_map.mp this
      exact ⟨s, hs, by rw [hseq]; show s0.snapshot_id = p.snapshot_id; rw [hsid0, hsid]⟩
    have hgnaNG : ∀ g ∈ ng, pyIsNA g.app_group_id = false := by
      intro g hg
      obtain ⟨g0, hg0, hk⟩ := htransG g hg
      have : g0.app_group_id = g.app_group_id := congrArg (fun k => k.2) hk
      rw [← this]
      exact hnaGagi g0 hg0
    have hguNG : (ng.map groupKeys).Nodup := by
      rw [hkeysNG]
      exact ensure_unique_keys_ok hu2
    -- the snapshot join
    have F1 := mergeSnapshots_forall₂ hnodupNS hfkNP
    -- group-key matches for every joined row
    have hmatch : ∀ r ∈ mergeSnapshots np ns,
        pyIsNA (r : ProcessRow × Option SnapshotRow).1.app_group_id = false →
        ∃ g ∈ ng, groupKeys g = (r.1.snapshot_id, r.1.app_group_id) := by
      intro r hr hna
      obtain ⟨p, hpnp, hR⟩ := forall₂_mem_right F1 r hr
      have hr1 : r.1 = p := hR.1
      obtain ⟨p0, hp0, hk⟩ := htransP p hpnp
      have hagi : p0.app_group_id = p.app_group_id := congrArg (fun k => k.2.2) hk
      have hsid : p0.snapshot_id = p.snapshot_id := congrArg (fun k => k.1) hk
      have hna0 : pyIsNA p0.app_group_id = false := by
        rw [hagi, ← hr1]; exact hna
      rcases hwf with hcol | hallNA
      · have hpair : (p0.snapshot_id, p0.app_group_id) ∈ processGroupPairs store := by
          unfold processGroupPairs
          exact List.mem_filterMap.mpr ⟨p0, hp0, by rw [if_neg (by simp [hna0])]⟩
        have hpair2 := danglingCheck_ok hdang hcol _ hpair
        unfold appGroupKeyPairs at hpair2
        obtain ⟨g0, hg0, heq⟩ := List.mem_filterMap.mp hpair2
        have hg0keys : groupKeys g0 = (p0.snapshot_id, p0.app_group_id) := by
          split at heq
          · cases heq
          · exact Option.some.inj heq
        have : groupKeys g0 ∈ ng.map groupKeys := by
          rw [hkeysNG]; exact List.mem_map_of_mem _ hg0
        obtain ⟨g, hg, hgeq⟩ := List.mem_map.mp this
        refine ⟨g, hg, ?_⟩
        rw [hgeq, hg0keys, hr1, ← hsid, ← hagi]
      · exact absurd (hallNA p0 hp0) (by rw [hagi, ← hr1, hna]; simp)
    have F2 := mergeGroups_forall₂ hgnaNG hguNG hmatch
    -- composed row description
    have FT : List.Forall₂ (fun (p : ProcessRow) (fr : FlatRow) =>
        fr.proc = p ∧ (∃ s, fr.snap = some s ∧ s.snapshot_id = p.snapshot_id) ∧
        (pyIsNA p.app_group_id = true → fr.group = Option.none) ∧
        (pyIsNA p.app_group_id = false → ∃ g, fr.group = some g ∧
          g.snapshot_id = p.snapshot_id ∧ g.app_group_id = p.app_group_id))
        np (mergeGroups (mergeSnapshots np ns) ng) := by
      refine forall₂_comp ?_ F1 F2
      rintro p pr fr ⟨hpr1, s, hpr2, hsid⟩ ⟨hfp, hfs, hgnone, hgsome⟩
      rw [hpr1] at hfp hgnone hgsome
      exact ⟨hfp, ⟨s, by rw [hfs, hpr2], by rw [hfp] at *; exact hsid⟩, hgnone,
        fun hna => by
          obtain ⟨g, hg1, hg2, hg3⟩ := hgsome hna
          exact ⟨g, hg1, hg2, hg3⟩⟩
    have hnpLen : np.length = store.processes.rows.length := by
      have := congrArg List.length hkeysNP
      simpa using this
    have hperm : (sortFlat (mergeGroups (mergeSnapshots np ns) ng)).Perm
        (mergeGroups (mergeSnapshots np ns) ng) :=
      List.perm_insertionSort flatLe _
    have hkeymap : (mergeGroups (mergeSnapshots np ns) ng).map
          (fun r => (r.proc.snapshot_id, r.proc.pid))
        = np.map (fun p => (p.snapshot_id, p.pid)) := by
      refine forall₂_map_eq _ _ ?_ FT
      intro p fr hR
      rw [hR.1]
    have hkeymap2 : np.map (fun p => (p.snapshot_id, p.pid))
        = store.processes.rows.map (fun p => (p.snapshot_id, p.pid)) := by
      have h2 := congrArg (List.map (fun k : PyVal × PyVal × PyVal => (k.1, k.2.1))) hkeysNP
      simpa [List.map_map, Function.comp] using h2
    refine ⟨?_, ?_, ?_, ?_, ?_, ?_⟩
    · rw [hperm.length_eq]
      rw [← FT.length_eq, hnpLen]
    · refine (hperm.map (fun r => (r.proc.snapshot_id, r.proc.pid))).trans ?_
      rw [hkeymap, hkeymap2]
    · intro r hr
      obtain ⟨p, -, hR⟩ := forall₂_mem_right FT r (hperm.mem_iff.mp hr)
      obtain ⟨s, hs1, hs2⟩ := hR.2.1
      exact ⟨s, hs1, by rw [hR.1]; exact hs2⟩
    · intro r hr hna
      obtain ⟨p, -, hR⟩ := forall₂_mem_right FT r (hperm.mem_iff.mp hr)
      exact hR.2.2.1 (by rw [← hR.1]; exact hna)
    · intro r hr hna
      obtain ⟨p, -, hR⟩ := forall₂_mem_right FT r (hperm.mem_iff.mp hr)
      obtain ⟨g, hg1, hg2, hg3⟩ := hR.2.2.2 (by rw [← hR.1]; exact hna)
      exact ⟨g, hg1, by rw [hR.1]; exact hg2, by rw [hR.1]; exact hg3⟩
    · exact List.sorted_insertionSort flatLe _

def storeW : Store :=
  ⟨"db", true,
   ⟨["snapshot_id"], [⟨.pint 1, []⟩]⟩,
   ⟨["snapshot_id", "pid", "app_group_id"], [⟨.pint 1, .pint 100, .pstr "g1", .none, []⟩]⟩,
   ⟨["snapshot_id", "app_group_id"], [⟨.pint 1, .pstr "g1", .none, .none, []⟩]⟩⟩

def flatW : List FlatRow :=
  match load_snapshots_as_frame storeW with
  | .ok l => l
  | .error _ => []

/-- Witness for C2 (amended): the flattening contract on a concrete store
with one snapshot, one grouped process and one app group. -/
theorem c2_flatten_amended_witness :
    flatW.length = storeW.processes.rows.length ∧
    (flatW.map (fun r => (r.proc.snapshot_id, r.proc.pid))).Perm
      (storeW.processes.rows.map (fun p => (p.snapshot_id, p.pid))) ∧
    (∀ r ∈ flatW, ∃ s, r.snap = some s ∧ s.snapshot_id = r.proc.snapshot_id) ∧
    (∀ r ∈ flatW, pyIsNA r.proc.app_group_id = true → r.group = Option.none) ∧
    (∀ r ∈ flatW, pyIsNA r.proc.app_group_id = false →
      ∃ g, r.group = some g ∧ g.snapshot_id = r.proc.snapshot_id ∧
        g.app_group_id = r.proc.app_group_id) ∧
    List.Sorted flatLe flatW :=
  c2_flatten_amended storeW flatW (by decide) (by decide) (Or.inl (by decide))

/-! ### C9: error-kind identifiability

A caller sees only `render e` — the exception class and the message. We
build an explicit classifier that recovers the spec §7 kind from that
observation alone and prove it correct on every producible error, from
which any two producible errors of different kinds render differently. -/

def noApos (l : List Char) : Bool := l.all (fun c => if c = apos then false else true)

-- True when the two lists differ at some position that both of them reach
-- (so no extension of either can make the concatenations equal).
def strDiverge : List Char → List Char → Bool
  | x :: xs, y :: ys => if x = y then strDiverge xs ys else true
  | _, _ => false

def stripPfx : List Char → List Char → Option (List Char)
  | [], m => some m
  | _ :: _, [] => Option.none
  | p :: ps, c :: cs => if p = c then stripPfx ps cs else Option.none

-- Drop everything through the first apostrophe.
def skipApos : List Char → Option (List Char)
  | [] => Option.none
  | c :: cs => if c = apos then some cs else skipApos cs

lemma stripPfx_append (p s : List Char) : stripPfx p (p ++ s) = some s := by
  induction p with
  | nil => rfl
  | cons c cs ih => simp [stripPfx, ih]

lemma stripPfx_append_of_ne (p m : List Char) (h : strDiverge p m = true) (s : List Char) :
    stripPfx p (m ++ s) = Option.none := by
  induction p generalizing m with
  | nil => simp [strDiverge] at h
  | cons c cs ih =>
    cases m with
    | nil => simp [strDiverge] at h
    | cons d ds =>
      by_cases hcd : c = d
      · subst hcd
        have h2 : strDiverge cs ds = true := by simpa [strDiverge] using h
        simpa [stripPfx] using ih ds h2
      · simp [stripPfx, hcd]

lemma skipApos_cons (r : List Char) : skipApos (apos :: r) = some r := by
  simp [skipApos]

lemma skipApos_append (x : List Char) (hx : noApos x = true) (r : List Char) :
    skipApos (x ++ apos :: r) = some r := by
  induction x with
  | nil => simp [skipApos]
  | cons c cs ih =>
    have hcc := hx
    simp only [noApos, List.all_cons, Bool.and_eq_true] at hcc
    obtain ⟨hc1, hc2⟩ := hcc
    have hne : ¬ (c = apos) := by intro h; simp [h] at hc1
    have ih2 := ih (by simpa [noApos] using hc2)
    simpa [skipApos, hne] using ih2

-- After the second quoted column name, the two remaining templates.
def parseAfterCol (r : List Char) : Option ErrorKind :=
  if (stripPfx (chs " содержит пустые значения (строки: ") r).isSome then
    some .integrityError
  else if (stripPfx (chs " содержит бесконечные значения (строки: ") r).isSome then
    some .nonFiniteValueError
  else Option.none

-- After the quoted table name, the five "В таблице ..." templates.
def parseAfterTable (r : List Char) : Option ErrorKind :=
  if (stripPfx (chs " отсутствуют обязательные столбцы: ") r).isSome then
    some .schemaError
  else if (stripPfx (chs " найдены snapshot_id без записей в ") r).isSome then
    some .integrityError
  else if (stripPfx (chs " обнаружены дубликаты по ключу ") r).isSome then
    some .integrityError
  else if (stripPfx (chs " есть app_group_id без записей в ") r).isSome then
    some .integrityError
  else
    match stripPfx (chs " колонка ") r with
    | some r4 =>
      (match skipApos r4 with
       | some r5 =>
         (match skipApos r5 with
          | some r6 => parseAfterCol r6
          | _ => Option.none)
       | _ => Option.none)
    | _ => Option.none

-- The message families that do not start with "В таблице ".
def parseTop (m : List Char) : Option ErrorKind :=
  if (stripPfx (chs "Колонка ") m).isSome then some .valueCoercionError
  else if (stripPfx (chs "Ожидался JSON-массив, получено: ") m).isSome then
    some .valueCoercionError
  else if (stripPfx (chs "DataFrame с снапшотами пуст") m).isSome then
    some .emptyInputError
  else if (stripPfx (chs "Ожидается столбец snapshot_id для группировки") m).isSome then
    some .emptyInputError
  else if (stripPfx (chs "Нет доступных таргетов teacher_score или responsiveness_score") m).isSome then
    some .emptyInputError
  else Option.none

def parseKind (m : List Char) : Option ErrorKind :=
  match stripPfx (chs "В таблице ") m with
  | some r1 =>
    (match skipApos r1 with
     | some r2 =>
       (match skipApos r2 with
        | some r3 => parseAfterTable r3
        | _ => Option.none)
     | _ => Option.none)
  | _ => parseTop m

-- What a caller can compute from the observable alone.
def classify (obs : String × String) : ErrorKind :=
  if obs.1 = "FileNotFoundError" then .storeNotFound
  else (parseKind obs.2.data).getD .storeNotFound

-- Pairwise divergence of the fixed template segments (each pair differs at
-- a position both segments reach, so no suffix can reconcile them).
lemma divVtab_kolonka : strDiverge (chs "В таблице ") (chs "Колонка ") = true := by decide

lemma divVtab_ozhid : strDiverge (chs "В таблице ") (chs "Ожидался JSON-массив, получено: ") = true := by decide

lemma divKolonka_ozhid : strDiverge (chs "Колонка ") (chs "Ожидался JSON-массив, получено: ") = true := by decide

lemma divOtsut_naid : strDiverge (chs " отсутствуют обязательные столбцы: ") (chs " найдены snapshot_id без записей в ") = true := by decide

lemma divOtsut_obnar : strDiverge (chs " отсутствуют обязательные столбцы: ") (chs " обнаружены дубликаты по ключу ") = true := by decide

lemma divOtsut_est : strDiverge (chs " отсутствуют обязательные столбцы: ") (chs " есть app_group_id без записей в ") = true := by decide

lemma divOtsut_kolonka : strDiverge (chs " отсутствуют обязательные столбцы: ") (chs " колонка ") = true := by decide

lemma divNaid_obnar : strDiverge (chs " найдены snapshot_id без записей в ") (chs " обнаружены дубликаты по ключу ") = true := by decide

lemma divNaid_est : strDiverge (chs " найдены snapshot_id без записей в ") (chs " есть app_group_id без записей в ") = true := by decide

lemma divNaid_kolonka : strDiverge (chs " найдены snapshot_id без записей в ") (chs " колонка ") = true := by decide

lemma divObnar_est : strDiverge (chs " обнаружены дубликаты по ключу ") (chs " есть app_group_id без записей в ") = true := by decide

lemma divObnar_kolonka : strDiverge (chs " обнаружены дубликаты по ключу ") (chs " колонка ") = true := by decide

lemma divEst_kolonka : strDiverge (chs " есть app_group_id без записей в ") (chs " колонка ") = true := by decide

lemma divPust_beskon : strDiverge (chs " содержит пустые значения (строки: ") (chs " содержит бесконечные значения (строки: ") = true := by decide

-- Table names and the column names possible at the two parameterized raise
-- sites contain no apostrophe, so the quote scanner stops exactly at the
-- closing quote.
lemma noApos_tbl (t : TableName) : noApos (chs (tblNameStr t)) = true := by
  cases t <;> decide

lemma noApos_processes : noApos (chs "processes") = true := by decide

lemma noApos_nanSites : ∀ p ∈ nanSites, noApos (chs p.2) = true := by decide

lemma noApos_numeric (t : TableName) (c : String) (h : c ∈ numericColsFor t) :
    noApos (chs c) = true := by
  have hall : ∀ x ∈ numericColsFor t, noApos (chs x) = true := by
    cases t <;> decide
  exact hall c h

-- The classifier recovers the kind of every raise site's message.
lemma parse_missingColumns (t : TableName) (m : List String) :
    parseKind (TrainError.message (.missingColumns t m)) = some .schemaError := by
  simp [TrainError.message, parseKind, parseAfterTable, List.append_assoc,
        stripPfx_append, skipApos_cons, skipApos_append _ (noApos_tbl t)]

lemma parse_nanKeyColumn (t : TableName) (c : String) (i : List Nat)
    (hc : noApos (chs c) = true) :
    parseKind (TrainError.message (.nanKeyColumn t c i)) = some .integrityError := by
  simp [TrainError.message, parseKind, parseAfterTable, parseAfterCol, List.append_assoc,
        stripPfx_append, skipApos_cons, skipApos_append _ (noApos_tbl t), skipApos_append _ hc,
        stripPfx_append_of_ne _ _ divOtsut_kolonka, stripPfx_append_of_ne _ _ divNaid_kolonka,
        stripPfx_append_of_ne _ _ divObnar_kolonka, stripPfx_append_of_ne _ _ divEst_kolonka]

lemma parse_infiniteColumn (t : TableName) (c : String) (i : List Nat)
    (hc : noApos (chs c) = true) :
    parseKind (TrainError.message (.infiniteColumn t c i)) = some .nonFiniteValueError := by
  simp [TrainError.message, parseKind, parseAfterTable, parseAfterCol, List.append_assoc,
        stripPfx_append, skipApos_cons, skipApos_append _ (noApos_tbl t), skipApos_append _ hc,
        stripPfx_append_of_ne _ _ divOtsut_kolonka, stripPfx_append_of_ne _ _ divNaid_kolonka,
        stripPfx_append_of_ne _ _ divObnar_kolonka, stripPfx_append_of_ne _ _ divEst_kolonka,
        stripPfx_append_of_ne _ _ divPust_beskon]

lemma parse_missingSnapshotRefs (t : TableName) (ids : List PyVal) :
    parseKind (TrainError.message (.missingSnapshotRefs t ids)) = some .integrityError := by
  simp [TrainError.message, parseKind, parseAfterTable, List.append_assoc,
        stripPfx_append, skipApos_cons, skipApos_append _ (noApos_tbl t),
        stripPfx_append_of_ne _ _ divOtsut_naid]

lemma parse_duplicateKeys (t : TableName) (samples : List (PyVal × PyVal)) :
    parseKind (TrainError.message (.duplicateKeys t samples)) = some .integrityError := by
  simp [TrainError.message, parseKind, parseAfterTable, List.append_assoc,
        stripPfx_append, skipApos_cons, skipApos_append _ (noApos_tbl t),
        stripPfx_append_of_ne _ _ divOtsut_obnar, stripPfx_append_of_ne _ _ divNaid_obnar]

lemma parse_danglingGroup (pairs : List (PyVal × PyVal)) :
    parseKind (TrainError.message (.danglingGroup pairs)) = some .integrityError := by
  simp [TrainError.message, parseKind, parseAfterTable, List.append_assoc,
        stripPfx_append, skipApos_cons, skipApos_append _ noApos_processes,
        stripPfx_append_of_ne _ _ divOtsut_est, stripPfx_append_of_ne _ _ divNaid_est,
        stripPfx_append_of_ne _ _ divObnar_est]

lemma parse_boolCoercion (c : String) (t : TableName) (samples : List PyVal) :
    parseKind (TrainError.message (.boolCoercion c t samples)) = some .valueCoercionError := by
  simp [TrainError.message, parseKind, parseTop, List.append_assoc,
        stripPfx_append, stripPfx_append_of_ne _ _ divVtab_kolonka]

lemma parse_tagsElems (c : String) (samples : List PyVal) :
    parseKind (TrainError.message (.tagsElems c samples)) = some .valueCoercionError := by
  simp [TrainError.message, parseKind, parseTop, List.append_assoc,
        stripPfx_append, stripPfx_append_of_ne _ _ divVtab_kolonka]

lemma parse_processIdsInvalid (samples : List PyVal) :
    parseKind (TrainError.message (.processIdsInvalid samples)) = some .valueCoercionError := by
  simp [TrainError.message, parseKind, parseTop, List.append_assoc,
        stripPfx_append, stripPfx_append_of_ne _ _ divVtab_kolonka]

lemma parse_jsonNotArray (v : PyVal) :
    parseKind (TrainError.message (.jsonNotArray v)) = some .valueCoercionError := by
  simp [TrainError.message, parseKind, parseTop, List.append_assoc,
        stripPfx_append, stripPfx_append_of_ne _ _ divVtab_ozhid,
        stripPfx_append_of_ne _ _ divKolonka_ozhid]

lemma parse_emptyFrame : parseKind (TrainError.message .emptyFrame) = some .emptyInputError := by
  decide

lemma parse_noSnapshotCol : parseKind (TrainError.message .noSnapshotCol) = some .emptyInputError := by
  decide

lemma parse_noTargets : parseKind (TrainError.message .noTargets) = some .emptyInputError := by
  decide

instance (e : TrainError) : Decidable e.wf := by
  cases e <;> simp only [TrainError.wf] <;> infer_instance

lemma classify_vError (e : TrainError) (h : e.excType = "ValueError") :
    classify (render e) = (parseKind e.message).getD .storeNotFound := by
  have h0 : classify (render e) =
      if e.excType = "FileNotFoundError" then ErrorKind.storeNotFound
      else (parseKind e.message).getD .storeNotFound := rfl
  rw [h0, h, if_neg (by decide)]

-- Every producible error's kind is recoverable from what the caller sees.
lemma classify_render (e : TrainError) (hwf : e.wf) : classify (render e) = kindOf e := by
  cases e with
  | storeNotFound p =>
    have h0 : classify (render (.storeNotFound p)) =
        if ("FileNotFoundError" : String) = "FileNotFoundError" then ErrorKind.storeNotFound
        else (parseKind (chs p)).getD .storeNotFound := rfl
    rw [h0, if_pos rfl]
    rfl
  | missingColumns t m =>
    rw [classify_vError (.missingColumns t m) rfl, parse_missingColumns]
    rfl
  | nanKeyColumn t c i =>
    rw [classify_vError (.nanKeyColumn t c i) rfl,
        parse_nanKeyColumn t c i (noApos_nanSites (t, c) hwf)]
    rfl
  | infiniteColumn t c i =>
    rw [classify_vError (.infiniteColumn t c i) rfl,
        parse_infiniteColumn t c i (noApos_numeric t c hwf)]
    rfl
  | missingSnapshotRefs t ids =>
    rw [classify_vError (.missingSnapshotRefs t ids) rfl, parse_missingSnapshotRefs]
    rfl
  | duplicateKeys t samples =>
    rw [classify_vError (.duplicateKeys t samples) rfl, parse_duplicateKeys]
    rfl
  | danglingGroup pairs =>
    rw [classify_vError (.danglingGroup pairs) rfl, parse_danglingGroup]
    rfl
  | boolCoercion c t samples =>
    rw [classify_vError (.boolCoercion c t samples) rfl, parse_boolCoercion]
    rfl
  | tagsElems c samples =>
    rw [classify_vError (.tagsElems c samples) rfl, parse_tagsElems]
    rfl
  | processIdsInvalid samples =>
    rw [classify_vError (.processIdsInvalid samples) rfl, parse_processIdsInvalid]
    rfl
  | jsonNotArray v =>
    rw [classify_vError (.jsonNotArray v) rfl, parse_jsonNotArray]
    rfl
  | emptyFrame =>
    rw [classify_vError .emptyFrame rfl, parse_emptyFrame]
    rfl
  | noSnapshotCol =>
    rw [classify_vError .noSnapshotCol rfl, parse_noSnapshotCol]
    rfl
  | noTargets =>
    rw [classify_vError .noTargets rfl, parse_noTargets]
    rfl

/-- Claim C9: every raise site belongs to one of the six §7 failure kinds and
propagates as a distinct, identifiable error: over errors whose arguments are
producible at their raise sites (`TrainError.wf`), the caller-visible
observation `render` (the exception class and its message) determines the
kind — so two failing inputs hitting different kinds always render
differently, letting the caller tell bad input data from bad schema from an
unusable target. Proved via `classify`, an explicit decoder the caller could
run on the observation. -/
theorem c9_error_kinds (e1 e2 : TrainError) (h1 : e1.wf) (h2 : e2.wf)
    (hr : render e1 = render e2) : kindOf e1 = kindOf e2 := by
  rw [← classify_render e1 h1, ← classify_render e2 h2, hr]

/-- Witness for C9: the error-kind identifiability theorem applied at a
concrete producible error. -/
theorem c9_error_kinds_witness :
    (TrainError.nanKeyColumn TableName.processes "pid" [0]).wf ∧
    render (TrainError.nanKeyColumn TableName.processes "pid" [0]) =
      render (TrainError.nanKeyColumn TableName.processes "pid" [0]) ∧
    kindOf (TrainError.nanKeyColumn TableName.processes "pid" [0]) =
      kindOf (TrainError.nanKeyColumn TableName.processes "pid" [0]) :=
  ⟨by decide, rfl, c9_error_kinds _ _ (by decide) (by decide) rfl⟩
